import Mathlib

/-!
# Verification of the SEO audit platform core

A shallow embedding, in Lean 4, of the core computational components of the
seo-audit-platform repository:

* the rule engine (`app/core/rule_engine.py`): nested-field access, value
  transforms, the operator registry, condition and rule evaluation, the
  impact-score formula and the category-score formula;
* the crawler engine (`app/engines/crawler/engine.py`): URL normalization
  (with the relevant fragment of CPython's `urllib.parse`), the robots.txt
  gate (with the relevant behaviour of CPython's `urllib.robotparser`),
  sitemap discovery, the BFS crawl loop and the crawlability score;
* the on-page analyzer (`app/engines/onpage/engine.py`): the per-issue
  construction with its impact scores;
* the prioritization engine (`app/engines/prioritization/engine.py`): the
  priority-score formula, the stable descending sort and recommendation
  ranking.

Modelling conventions:

* Python floats are modelled as exact rationals (`ℚ`); `round(x, n)` is
  modelled by round-half-to-even on the rational value, matching Python's
  rounding mode (banker's rounding).
* Python strings are Lean `String`s; percent-encoding works on the UTF-8
  bytes of the string as in CPython.
* Fallible Python code is modelled with `Except`/`Option`: an uncaught
  exception is an `.error`, a `None` result is `.none`.
* Unbounded recursion / while-loops are modelled with an explicit fuel
  parameter; running out of fuel models non-termination.
-/

deriving instance DecidableEq for Except

/-! ## Python rounding on rationals -/

/-- Round-half-to-even on rationals: the integer nearest to `q`, with exact
halves going to the even neighbour.  This is the rounding mode of Python's
builtin `round`. -/
def pyRoundInt (q : ℚ) : ℤ :=
  let f : ℤ := ⌊q⌋
  let r : ℚ := q - (f : ℚ)
  if r < 1/2 then f
  else if 1/2 < r then f + 1
  else if 2 ∣ f then f else f + 1

/-- Python `round(x, 2)` on the rational model. -/
def pyRound2 (q : ℚ) : ℚ := (pyRoundInt (q * 100) : ℚ) / 100

/-- Python `round(x, 0)` on the rational model (result is a whole number). -/
def pyRound0 (q : ℚ) : ℚ := (pyRoundInt q : ℚ)

/-! ## Structural string helpers

Kernel-computable (structurally recursive) versions of the Python string
operations used below; `str.lower`/`str.upper` are modelled on ASCII. -/

/-- Split on a single-character separator (`str.split(sep)` for the
one-character separators used by the sources). -/
def strSplitOnChar (sep : Char) (s : String) : List String :=
  go s.toList []
where
  /-- Accumulate the current piece (reversed). -/
  go : List Char → List Char → List String
    | [], acc => [⟨acc.reverse⟩]
    | c :: rest, acc =>
      if c = sep then ⟨acc.reverse⟩ :: go rest []
      else go rest (c :: acc)

/-- ASCII `str.lower()`. -/
def asciiLower (s : String) : String :=
  ⟨s.toList.map (fun c =>
    if 'A' ≤ c ∧ c ≤ 'Z' then Char.ofNat (c.toNat + 32) else c)⟩

/-- ASCII `str.upper()`. -/
def asciiUpper (s : String) : String :=
  ⟨s.toList.map (fun c =>
    if 'a' ≤ c ∧ c ≤ 'z' then Char.ofNat (c.toNat - 32) else c)⟩

/-- `str.replace(old, new)` for one-character arguments. -/
def replaceChar (old new : Char) (s : String) : String :=
  ⟨s.toList.map (fun c => if c = old then new else c)⟩

/-- `sep.join(pieces)`. -/
def joinWith (sep : String) : List String → String
  | [] => ""
  | [x] => x
  | x :: y :: rest => x ++ sep ++ joinWith sep (y :: rest)

/-- `str.startswith(p)`. -/
def strStartsWith (s p : String) : Bool :=
  p.toList.isPrefixOf s.toList

/-- `str.endswith(p)`. -/
def strEndsWith (s p : String) : Bool :=
  p.toList.reverse.isPrefixOf s.toList.reverse

/-- `c in s` for a single character. -/
def strContainsChar (s : String) (c : Char) : Bool :=
  s.toList.any (fun x => x = c)

/-! ## Severities and grades (`app/engines/base.py`) -/

/-- `Severity` from `app/engines/base.py`. -/
inductive Severity where
  | critical
  | high
  | medium
  | low
  | info
deriving DecidableEq, Repr

/-- `AuditEngine.calculate_grade` from `app/engines/base.py`: letter grade
from a 0-100 score. -/
def calculate_grade (score : ℚ) : String :=
  if score ≥ 90 then "A"
  else if score ≥ 80 then "B"
  else if score ≥ 65 then "C"
  else if score ≥ 50 then "D"
  else "F"

/-! ## Issues (`app/engines/base.py`) -/

/-- The fields of `Issue` (`app/engines/base.py`) that the scoring and
prioritization code reads.  `title`, `description`, `documentation_url` and
`metadata` are carried as plain data where needed and omitted where not. -/
structure Issue where
  rule_id : String
  title : String
  description : String
  severity : Severity
  category : String
  affected_urls : List String
  affected_count : ℕ
  impact_score : ℚ
  effort_score : ℚ
  recommendation : String
deriving DecidableEq, Repr

/-! ## Impact and category scores (`app/core/rule_engine.py`) -/

/-- `SEVERITY_WEIGHTS` from `app/core/rule_engine.py` (the
`.get(severity, 0.0)` lookup is total over the enum). -/
def ruleEngineSeverityWeight : Severity → ℚ
  | .critical => 25
  | .high => 15
  | .medium => 8
  | .low => 3
  | .info => 0

/-- `calculate_category_score` from `app/core/rule_engine.py`. -/
def calculate_category_score (issues : List Issue) (total_checks : ℕ)
    (pages_analyzed : ℕ) : ℚ :=
  if total_checks = 0 then 100
  else
    let penalty : ℚ := issues.foldl
      (fun acc issue =>
        let weight := ruleEngineSeverityWeight issue.severity
        let coverage : ℚ :=
          min 1 ((issue.affected_count : ℚ) / (max 1 pages_analyzed : ℕ))
        acc + weight * (1/2 + 1/2 * coverage)) 0
    let max_penalty : ℚ := (25 + 15 + 8 + 3 + 0) * (min total_checks 10 : ℕ)
    let score := max 0 (100 - penalty / max max_penalty 1 * 100)
    pyRound2 score

/-- The severity multipliers of `calculate_impact_score`
(`app/core/rule_engine.py`); the `.get(severity, 0.5)` default is
unreachable over the enum. -/
def impactSeverityMultiplier : Severity → ℚ
  | .critical => 1
  | .high => 3/4
  | .medium => 1/2
  | .low => 1/4
  | .info => 0

/-- `calculate_impact_score` from `app/core/rule_engine.py`. -/
def calculate_impact_score (severity : Severity) (affected_count : ℕ)
    (total_pages : ℕ) (rule_impact_score : ℚ) : ℚ :=
  let multiplier := impactSeverityMultiplier severity
  let coverage : ℚ := min 1 ((affected_count : ℚ) / (max 1 total_pages : ℕ))
  let impact := rule_impact_score * multiplier * (3/10 + 7/10 * coverage)
  pyRound2 (min 100 impact)

/-! ## On-page analyzer issue construction (`app/engines/onpage/engine.py`)

`OnPageAnalyzerEngine.run` classifies the 200-OK HTML pages into per-check
lists (via BeautifulSoup parsing) and then builds one `Issue` per non-empty
list.  The HTML classification step is abstracted into the classification
counts below; the issue-construction section (lines 149-309 of the source)
is embedded faithfully, including each issue's severity, rule base score
and `impact_score` expression. -/

/-- The classification counts computed by the page loop of
`OnPageAnalyzerEngine.run`: the length of each `list[PageData]` bucket. -/
structure OnPageCounts where
  missing_title : ℕ
  dup_title : ℕ
  short_title : ℕ
  long_title : ℕ
  missing_meta : ℕ
  dup_desc : ℕ
  missing_h1 : ℕ
  multiple_h1 : ℕ
  missing_alt : ℕ
  thin_content : ℕ
  long_urls : ℕ
  uppercase_urls : ℕ
deriving Repr

/-- One issue block `if <bucket>: issues.append(Issue(...))` of
`OnPageAnalyzerEngine.run`.  `urls` stands for the (truncated) affected-URL
sample, which the impact formula does not read. -/
def onpageIssueBlock (rule_id title description : String) (severity : Severity)
    (count : ℕ) (impact : ℚ) (recommendation : String) : List Issue :=
  if count ≠ 0 then
    [{ rule_id := rule_id, title := title, description := description,
       severity := severity, category := "on_page", affected_urls := [],
       affected_count := count, impact_score := impact, effort_score := 5,
       recommendation := recommendation }]
  else []

/-- The issue-construction section of `OnPageAnalyzerEngine.run`
(lines 149-309): twelve conditional `issues.append(Issue(...))` blocks, in
source order.  `total_pages = max(1, len(pages))` is computed by the caller
and passed in.  Note the last block (`onpage-uppercase-urls`) uses the
literal `impact_score=20.0` instead of `calculate_impact_score`. -/
def onpageIssues (c : OnPageCounts) (total_pages : ℕ) : List Issue :=
  onpageIssueBlock "onpage-missing-title" "Pages missing title tags" ""
    .critical c.missing_title
    (calculate_impact_score .critical c.missing_title total_pages 95)
    "Add unique, descriptive title tags (30-60 chars) to every page."
  ++ onpageIssueBlock "onpage-duplicate-title" "Duplicate title tags across pages" ""
    .high c.dup_title
    (calculate_impact_score .high c.dup_title total_pages 75)
    "Write unique title tags for every page. Include target keywords."
  ++ onpageIssueBlock "onpage-short-title" "Title tags too short" ""
    .medium c.short_title
    (calculate_impact_score .medium c.short_title total_pages 55)
    "Expand title tags to 30-60 characters."
  ++ onpageIssueBlock "onpage-long-title" "Title tags too long (will be truncated)" ""
    .medium c.long_title
    (calculate_impact_score .medium c.long_title total_pages 45)
    "Trim title tags to under 60 characters."
  ++ onpageIssueBlock "onpage-missing-meta-description" "Pages missing meta descriptions" ""
    .high c.missing_meta
    (calculate_impact_score .high c.missing_meta total_pages 70)
    "Write compelling meta descriptions (70-160 chars) to improve CTR from search results."
  ++ onpageIssueBlock "onpage-duplicate-meta-description" "Duplicate meta descriptions" ""
    .medium c.dup_desc
    (calculate_impact_score .medium c.dup_desc total_pages 50)
    "Write unique meta descriptions for every page."
  ++ onpageIssueBlock "onpage-missing-h1" "Pages missing H1 heading" ""
    .high c.missing_h1
    (calculate_impact_score .high c.missing_h1 total_pages 65)
    "Add a single, keyword-rich H1 heading to every page."
  ++ onpageIssueBlock "onpage-multiple-h1" "Pages with multiple H1 headings" ""
    .medium c.multiple_h1
    (calculate_impact_score .medium c.multiple_h1 total_pages 40)
    "Use only one H1 per page. Use H2-H6 for subheadings."
  ++ onpageIssueBlock "onpage-missing-alt-text" "Images missing alt text" ""
    .medium c.missing_alt
    (calculate_impact_score .medium c.missing_alt total_pages 45)
    "Add descriptive alt text to all meaningful images."
  ++ onpageIssueBlock "onpage-thin-content" "Pages with thin content" ""
    .medium c.thin_content
    (calculate_impact_score .medium c.thin_content total_pages 55)
    "Expand content to at least 300 words. Focus on depth and value."
  ++ onpageIssueBlock "onpage-long-urls" "URLs exceeding recommended length" ""
    .low c.long_urls
    (calculate_impact_score .low c.long_urls total_pages 25)
    "Keep URLs short, descriptive, and keyword-rich."
  ++ onpageIssueBlock "onpage-uppercase-urls" "URLs containing uppercase characters" ""
    .low c.uppercase_urls
    (20)
    "Use only lowercase URLs. Redirect uppercase variants to lowercase equivalents."

/-- The rule base score passed by `OnPageAnalyzerEngine.run` to
`calculate_impact_score` for each of the eleven rules that use it. -/
def onpageRuleBase : String → ℚ
  | "onpage-missing-title" => 95
  | "onpage-duplicate-title" => 75
  | "onpage-short-title" => 55
  | "onpage-long-title" => 45
  | "onpage-missing-meta-description" => 70
  | "onpage-duplicate-meta-description" => 50
  | "onpage-missing-h1" => 65
  | "onpage-multiple-h1" => 40
  | "onpage-missing-alt-text" => 45
  | "onpage-thin-content" => 55
  | "onpage-long-urls" => 25
  | _ => 0

/-! ## Crawlability score (`app/engines/crawler/engine.py`) -/

/-- The fields of `PageData` (`app/engines/base.py`) read by
`_calculate_crawl_score` and `_analyze_crawl_issues`. -/
structure ScorePage where
  url : String
  canonical_url : Option String
  status_code : ℤ
  load_time_ms : ℚ
deriving DecidableEq, Repr

/-- The severity penalties local to `_calculate_crawl_score`; `.get(sev, 0)`
yields 0 for `info`. -/
def crawlSeverityPenalty : Severity → ℚ
  | .critical => 20
  | .high => 10
  | .medium => 5
  | .low => 2
  | .info => 0

/-- `CrawlerEngine._calculate_crawl_score` from
`app/engines/crawler/engine.py`: overall crawlability score. -/
def calculate_crawl_score (pages : List ScorePage) (issues : List Issue) : ℚ :=
  if pages = [] then 0
  else
    let total : ℚ := pages.length
    let successful : ℚ :=
      (pages.filter (fun p => 200 ≤ p.status_code ∧ p.status_code < 400)).length
    let success_rate := successful / total
    let score₀ := success_rate * 70
    let has_canonical : ℚ :=
      ((pages.filter (fun p => p.canonical_url ≠ none)).length : ℚ)
        / max 1 total
    let score₁ := score₀ + has_canonical * 20
    let score₂ := issues.foldl
      (fun s issue => s - crawlSeverityPenalty issue.severity) score₁
    max 0 (min 100 (pyRound2 score₂))

/-! ## Prioritization engine (`app/engines/prioritization/engine.py`) -/

/-- `SEVERITY_WEIGHTS` from `app/engines/prioritization/engine.py`. -/
def prioritizationSeverityWeight : Severity → ℚ
  | .critical => 100
  | .high => 75
  | .medium => 50
  | .low => 25
  | .info => 0

/-- `TRAFFIC_POTENTIAL_BY_SEVERITY` from
`app/engines/prioritization/engine.py`. -/
def trafficPotentialBySeverity : Severity → ℚ
  | .critical => 80
  | .high => 60
  | .medium => 35
  | .low => 15
  | .info => 0

/-- `calculate_priority_score` from `app/engines/prioritization/engine.py`:
`P = impact*0.40 + traffic*0.25 + effort_ease*0.20 + severity*0.15`,
rounded to two decimals. -/
def calculate_priority_score (issue : Issue) : ℚ :=
  let impact := issue.impact_score
  let traffic_potential := trafficPotentialBySeverity issue.severity
  let effort_ease := (10 - issue.effort_score) * 10
  let severity_score := prioritizationSeverityWeight issue.severity
  pyRound2 (impact * (2/5) + traffic_potential * (1/4)
    + effort_ease * (1/5) + severity_score * (3/20))

/-- `effort_label` from `app/engines/prioritization/engine.py`. -/
def effort_label (score : ℚ) : String :=
  if score ≤ 3 then "low" else if score ≤ 7 then "medium" else "high"

/-- `impact_label` from `app/engines/prioritization/engine.py`. -/
def impact_label (score : ℚ) : String :=
  if score ≥ 70 then "high" else if score ≥ 40 then "medium" else "low"

/-- The fields of `Recommendation` (`app/engines/base.py`) populated by
`PrioritizationEngine.run`.  `implementation_steps` is carried as data;
the static `IMPLEMENTATION_STEPS` table lookup is modelled by
`implementationSteps` below. -/
structure Recommendation where
  issue_id : String
  priority_rank : ℕ
  title : String
  description : String
  effort : String
  impact : String
  estimated_traffic_gain : ℚ
  estimated_revenue_impact : ℚ
  implementation_steps : List String
deriving DecidableEq, Repr

/-- `IMPLEMENTATION_STEPS.get(rule_id, generic-4-step-default)` from
`app/engines/prioritization/engine.py`, with the step texts abbreviated to
the rule they belong to (the texts are opaque data to every claim). -/
def implementationSteps (rule_id : String) : List String :=
  if rule_id ∈ ["onpage-missing-title", "onpage-missing-meta-description",
      "tech-http-pages", "crawl-4xx-pages", "crawl-duplicate-content",
      "onpage-missing-h1", "onpage-thin-content"] then
    [rule_id ++ "-steps"]
  else
    ["Review the affected URLs listed in the audit report",
     "Implement the recommended fix on the highest-traffic pages first",
     "Validate the fix using Google Search Console or re-crawl",
     "Monitor rankings for affected pages over the next 4-8 weeks"]

/-- The comparison used for the descending stable sort
`scored_issues.sort(key=lambda x: x[1], reverse=True)`: CPython's sort with
a key and `reverse=True` is stable and descending in the key, which is
exactly stable `mergeSort` with this relation. -/
def priorityDescLE (a b : Issue × ℚ) : Bool := decide (b.2 ≤ a.2)

/-- The recommendation-building loop of `PrioritizationEngine.run`
(`for rank, (issue, priority_score) in enumerate(scored_issues[:50], start=1)`),
given the monthly traffic setting. -/
def buildRecommendations (monthly_traffic : ℚ) : ℕ → List (Issue × ℚ) →
    List Recommendation
  | _, [] => []
  | rank, (issue, _score) :: rest =>
    let steps := implementationSteps issue.rule_id
    let traffic_gain_pct := trafficPotentialBySeverity issue.severity / 100
    let estimated_traffic :=
      monthly_traffic * traffic_gain_pct * (issue.impact_score / 100)
    let estimated_revenue := estimated_traffic * (2/100) * 100
    { issue_id := issue.rule_id,
      priority_rank := rank,
      title := issue.title,
      description :=
        if issue.recommendation ≠ "" then issue.recommendation
        else issue.description,
      effort := effort_label issue.effort_score,
      impact := impact_label issue.impact_score,
      estimated_traffic_gain := pyRound0 estimated_traffic,
      estimated_revenue_impact := pyRound2 estimated_revenue,
      implementation_steps := steps }
      :: buildRecommendations monthly_traffic (rank + 1) rest

/-- The fields of the `AuditResult` (`app/engines/base.py`) returned by
`PrioritizationEngine.run` that the claims read. -/
structure PrioritizationResult where
  status : String
  score : ℚ
  grade : String
  issues : List Issue
  recommendations : List Recommendation
deriving Repr

/-- The scored-and-sorted list local to `PrioritizationEngine.run`:
`scored_issues` after `sort(key=lambda x: x[1], reverse=True)` and the
`[:50]` truncation of the recommendation loop. -/
def scoredSortedTop50 (all_issues : List Issue) : List (Issue × ℚ) :=
  ((all_issues.map (fun i => (i, calculate_priority_score i))).mergeSort
    priorityDescLE).take 50

/-- `PrioritizationEngine.run` from `app/engines/prioritization/engine.py`.
`engine_results` is modelled by the issue lists of the engine results (the
only field the function reads); `all_issues` is their concatenation in
order. -/
def prioritizationRun (engine_results : List (List Issue))
    (monthly_traffic : ℚ) : PrioritizationResult :=
  let all_issues := engine_results.flatten
  if all_issues = [] then
    { status := "success", score := 100, grade := "A",
      issues := [], recommendations := [] }
  else
    let recommendations :=
      buildRecommendations monthly_traffic 1 (scoredSortedTop50 all_issues)
    { status := "success", score := 100, grade := "N/A",
      issues := all_issues, recommendations := recommendations }

/-! ## Python value model for the rule engine (`app/core/rule_engine.py`)

Page data handed to `RuleEvaluator` is JSON-like Python data: `None`,
booleans, ints, floats, strings, lists and string-keyed dicts.  The
operator lambdas of the `OPERATORS` table can raise `TypeError` (caught by
`evaluate_condition`) or `re.error` (not caught); these outcomes are
tracked explicitly. -/

/-- JSON-like Python values as passed to the rule engine. -/
inductive Value where
  | none
  | bool (b : Bool)
  | int (n : ℤ)
  | float (q : ℚ)
  | str (s : String)
  | list (xs : List Value)
  | dict (kvs : List (String × Value))

/-- Python truthiness (`bool(x)`) on the modelled values. -/
def pyTruthy : Value → Bool
  | .none => false
  | .bool b => b
  | .int n => decide (n ≠ 0)
  | .float q => decide (q ≠ 0)
  | .str s => decide (s ≠ "")
  | .list xs => !xs.isEmpty
  | .dict kvs => !kvs.isEmpty

/-- The numeric content of a value, for Python's cross-type numeric
equality and ordering (`True == 1`, `1 == 1.0`, ...). -/
def numValue : Value → Option ℚ
  | .bool b => some (if b then 1 else 0)
  | .int n => some (n : ℚ)
  | .float q => some q
  | _ => Option.none

mutual

/-- Python `==` on the modelled values: numeric values compare by value
across `bool`/`int`/`float`; strings, lists and dicts compare structurally;
everything else (including `None` vs anything) is unequal. -/
def pyEq : Value → Value → Bool
  | .none, .none => true
  | .str a, .str b => a == b
  | .list xs, .list ys => pyEqList xs ys
  | .dict xs, .dict ys => pyEqDict xs ys
  | a, b =>
    match numValue a, numValue b with
    | some x, some y => x == y
    | _, _ => false

/-- Elementwise Python `==` on lists. -/
def pyEqList : List Value → List Value → Bool
  | [], [] => true
  | x :: xs, y :: ys => pyEq x y && pyEqList xs ys
  | _, _ => false

/-- Python `==` on (string-keyed, duplicate-free) dicts: same size and each
key of the left maps to an equal value on the right. -/
def pyEqDict : List (String × Value) → List (String × Value) → Bool
  | xs, ys =>
    xs.length == ys.length && pyEqDictMem xs ys

/-- Each binding of the first dict is present (same key, `pyEq` value) in
the second. -/
def pyEqDictMem : List (String × Value) → List (String × Value) → Bool
  | [], _ => true
  | (k, v) :: xs, ys => pyEqDictLookup k v ys && pyEqDictMem xs ys

/-- The second dict maps `k` to a value `pyEq` to `v`. -/
def pyEqDictLookup (k : String) (v : Value) : List (String × Value) → Bool
  | [] => false
  | (k₂, v₂) :: ys => (k == k₂ && pyEq v v₂) || pyEqDictLookup k v ys

end

mutual

/-- Python's ordering (`<`, `<=`, `>`, `>=`) on the modelled values:
defined on numeric pairs, string pairs and list pairs; `Option.none`
models a `TypeError` for every other combination. -/
def pyCmp : Value → Value → Option Ordering
  | .str a, .str b => some (compare a b)
  | .list xs, .list ys => pyCmpList xs ys
  | a, b =>
    match numValue a, numValue b with
    | some x, some y => some (compare x y)
    | _, _ => Option.none

/-- Lexicographic Python ordering on lists: skip `==`-equal prefixes, then
order by the first differing pair (which may itself `TypeError`). -/
def pyCmpList : List Value → List Value → Option Ordering
  | [], [] => some .eq
  | [], _ :: _ => some .lt
  | _ :: _, [] => some .gt
  | x :: xs, y :: ys => if pyEq x y then pyCmpList xs ys else pyCmp x y

end

/-- Python `len(x)`; `Option.none` models the `TypeError` on values without
a length. -/
def pyLen : Value → Option ℕ
  | .str s => some s.length
  | .list xs => some xs.length
  | .dict kvs => some kvs.length
  | _ => Option.none

/-- Substring test on lists of characters (`needle in haystack` for
Python strings; the empty needle is contained in everything). -/
def charsContain (haystack needle : List Char) : Bool :=
  match haystack with
  | [] => needle == []
  | _ :: rest => needle.isPrefixOf haystack || charsContain rest needle

/-- Python membership `member in container`: substring test on strings,
`==`-membership on lists, key membership on dicts; `Option.none` models the
`TypeError` for non-container right-hand sides or unhashable members. -/
def pyIn (member container : Value) : Option Bool :=
  match container with
  | .str s =>
    match member with
    | .str m => some (charsContain s.toList m.toList)
    | _ => Option.none
  | .list xs => some (xs.any (fun x => pyEq member x))
  | .dict kvs =>
    match member with
    | .list _ => Option.none
    | .dict _ => Option.none
    | _ => some (kvs.any (fun kv => pyEq member (.str kv.1)))
  | _ => Option.none

mutual

/-- Python `str(x)` on the modelled values.  Scalars follow CPython
exactly; floats are printed from the rational model and containers in a
`repr`-like form without escaping (no theorem depends on those
renderings). -/
def pyStr : Value → String
  | .none => "None"
  | .bool b => if b then "True" else "False"
  | .int n => toString n
  | .float q => toString q
  | .str s => s
  | .list xs => "[" ++ pyStrJoin xs ++ "]"
  | .dict kvs => "\x7b" ++ pyStrJoinPairs kvs ++ "\x7d"

/-- Python `repr(x)`: like `str` but strings are quoted. -/
def pyRepr : Value → String
  | .str s =>
    String.singleton (Char.ofNat 39) ++ s ++ String.singleton (Char.ofNat 39)
  | v => pyStr v

/-- Comma-joined `repr`s of list elements. -/
def pyStrJoin : List Value → String
  | [] => ""
  | [x] => pyRepr x
  | x :: y :: rest => pyRepr x ++ ", " ++ pyStrJoin (y :: rest)

/-- Comma-joined `repr`s of dict entries. -/
def pyStrJoinPairs : List (String × Value) → String
  | [] => ""
  | (k, v) :: rest =>
    String.singleton (Char.ofNat 39) ++ k ++ String.singleton (Char.ofNat 39)
      ++ ": " ++ pyRepr v
      ++ (if rest.isEmpty then "" else ", " ++ pyStrJoinPairs rest)

end

/-! ## Operator registry (`OPERATORS` in `app/core/rule_engine.py`) -/

/-- Outcome of one operator lambda from `OPERATORS`: a boolean result, a
`TypeError`/`AttributeError` (caught by `evaluate_condition`), or an
`re.error` from compiling an invalid pattern (not caught). -/
inductive OpRes where
  | ok (b : Bool)
  | typeErr
  | reErr
deriving DecidableEq, Repr

/-- Scanner for the regex-validity model: tracks open-group depth and
whether a character class is open. -/
def reValidChars : List Char → ℕ → Bool → Bool
  | [], depth, inClass => depth == 0 && !inClass
  | c :: rest, depth, inClass =>
    if c = '\\' then
      match rest with
      | [] => false
      | _ :: rest₂ => reValidChars rest₂ depth inClass
    else if inClass then
      reValidChars rest depth (c ≠ ']')
    else if c = '[' then reValidChars rest depth true
    else if c = '(' then reValidChars rest (depth + 1) false
    else if c = ')' then
      match depth with
      | 0 => false
      | d + 1 => reValidChars rest d false
    else reValidChars rest depth false

/-- Validity model for Python regex compilation (`re.compile`): a pattern
fails to compile when a character class `[...]` or group `(...)` is left
unclosed or a trailing backslash ends the pattern.  This is the fragment of
`re.error` conditions exercised by rule files; full regex syntax is not
modelled. -/
def reValid (p : String) : Bool :=
  reValidChars p.toList 0 false

/-- Model of `bool(re.search(pattern, s))` for patterns without special
characters: literal substring search.  (All patterns appearing in theorems
of this file are literal.) -/
def reSearch (pattern s : String) : Bool :=
  charsContain s.toList pattern.toList

/-- `re.search(b, str(a))` as used by the `matches` lambda: a non-string
pattern is a `TypeError` (caught); an invalid pattern raises `re.error`
(not caught). -/
def reSearchOp (a b : Value) : OpRes :=
  match b with
  | .str p => if reValid p then .ok (reSearch p (pyStr a)) else .reErr
  | _ => .typeErr

/-- Python `value is not None and value != "" and value != []` (the
`exists` lambda). -/
def pyExists (a : Value) : Bool :=
  match a with
  | .none => false
  | _ => !pyEq a (.str "") && !pyEq a (.list [])

/-- One entry of the `OPERATORS` table applied to `(a, b)`. -/
def applyOperator (op : String) (a b : Value) : OpRes :=
  match op with
  | "eq" => .ok (pyEq a b)
  | "ne" => .ok (!pyEq a b)
  | "lt" =>
    match pyCmp a b with
    | some o => .ok (o == .lt)
    | Option.none => .typeErr
  | "gt" =>
    match pyCmp a b with
    | some o => .ok (o == .gt)
    | Option.none => .typeErr
  | "lte" =>
    match pyCmp a b with
    | some o => .ok (o != .gt)
    | Option.none => .typeErr
  | "gte" =>
    match pyCmp a b with
    | some o => .ok (o != .lt)
    | Option.none => .typeErr
  | "contains" =>
    if pyTruthy a then
      match pyIn b a with
      | some r => .ok r
      | Option.none => .typeErr
    else .ok false
  | "not_contains" =>
    if pyTruthy a then
      match pyIn b a with
      | some r => .ok (!r)
      | Option.none => .typeErr
    else .ok true
  | "matches" => if pyTruthy a then reSearchOp a b else .ok false
  | "not_matches" =>
    if pyTruthy a then
      match reSearchOp a b with
      | .ok r => .ok (!r)
      | e => e
    else .ok true
  | "exists" => .ok (pyExists a)
  | "not_exists" => .ok (!pyExists a)
  | "in" =>
    if pyTruthy b then
      match pyIn a b with
      | some r => .ok r
      | Option.none => .typeErr
    else .ok false
  | "not_in" =>
    if pyTruthy b then
      match pyIn a b with
      | some r => .ok (!r)
      | Option.none => .typeErr
    else .ok true
  | "length_lt" =>
    if pyTruthy a then
      match pyLen a with
      | some n =>
        match pyCmp (.int n) b with
        | some o => .ok (o == .lt)
        | Option.none => .typeErr
      | Option.none => .typeErr
    else .ok true
  | "length_gt" =>
    if pyTruthy a then
      match pyLen a with
      | some n =>
        match pyCmp (.int n) b with
        | some o => .ok (o == .gt)
        | Option.none => .typeErr
      | Option.none => .typeErr
    else .ok false
  | "length_eq" =>
    if pyTruthy a then
      match pyLen a with
      | some n => .ok (pyEq (.int n) b)
      | Option.none => .typeErr
    else .ok false
  | "starts_with" =>
    if pyTruthy a then
      match b with
      | .str p => .ok (strStartsWith (pyStr a) p)
      | _ => .typeErr
    else .ok false
  | "ends_with" =>
    if pyTruthy a then
      match b with
      | .str p => .ok (strEndsWith (pyStr a) p)
      | _ => .typeErr
    else .ok false
  | _ => .typeErr

/-- Membership of an operator name in the `OPERATORS` table
(`OPERATORS.get(condition.operator)`). -/
def knownOperator (op : String) : Bool :=
  op ∈ ["eq", "ne", "lt", "gt", "lte", "gte", "contains", "not_contains",
    "matches", "not_matches", "exists", "not_exists", "in", "not_in",
    "length_lt", "length_gt", "length_eq", "starts_with", "ends_with"]

/-! ## Transforms and field access (`app/core/rule_engine.py`) -/

/-- Python whitespace characters recognised by `str.strip()` (the ASCII
ones; exotic unicode spaces are not modelled). -/
def pyIsSpace (c : Char) : Bool :=
  c = ' ' || c = '\t' || c = '\n' || c = '\r' || c = '\x0b' || c = '\x0c'

/-- Python `str.strip()`. -/
def pyStrip (s : String) : String :=
  ⟨(s.toList.dropWhile pyIsSpace).reverse.dropWhile pyIsSpace |>.reverse⟩

/-- Python `str.lstrip()` restricted to a character set. -/
def pyLStripSet (s : String) (bad : Char → Bool) : String :=
  ⟨s.toList.dropWhile bad⟩

/-- Python `int(str)`: optional surrounding whitespace, optional sign,
nonempty digit run (underscore grouping not modelled); `Option.none` is a
`ValueError`. -/
def pyParseInt (s : String) : Option ℤ :=
  let t := (pyStrip s).toList
  let (sign, digits) :=
    match t with
    | '+' :: rest => ((1 : ℤ), rest)
    | '-' :: rest => ((-1 : ℤ), rest)
    | _ => ((1 : ℤ), t)
  if digits ≠ [] ∧ digits.all Char.isDigit then
    some (sign * (digits.foldl (fun acc c => acc * 10 + (c.toNat - 48)) 0 : ℕ))
  else Option.none

/-- Python `float(str)` for plain decimal literals `[+-]digits[.digits]`;
`Option.none` is a `ValueError` (exponents, `inf`, `nan` not modelled). -/
def pyParseFloat (s : String) : Option ℚ :=
  let t := (pyStrip s).toList
  let (sign, body) :=
    match t with
    | '+' :: rest => ((1 : ℚ), rest)
    | '-' :: rest => ((-1 : ℚ), rest)
    | _ => ((1 : ℚ), t)
  let intPart := body.takeWhile Char.isDigit
  let rest := body.drop intPart.length
  let digitsVal : List Char → ℕ :=
    fun ds => ds.foldl (fun acc c => acc * 10 + (c.toNat - 48)) 0
  match rest with
  | [] =>
    if intPart ≠ [] then some (sign * digitsVal intPart) else Option.none
  | '.' :: frac =>
    if frac.all Char.isDigit ∧ (intPart ≠ [] ∨ frac ≠ []) then
      some (sign * ((digitsVal intPart : ℚ)
        + (digitsVal frac : ℚ) / (10 ^ frac.length : ℕ)))
    else Option.none
  | _ => Option.none

/-- Python `int(x)` on values (`TypeError`/`ValueError` as `Option.none`;
float conversion truncates toward zero). -/
def pyToInt : Value → Option ℤ
  | .bool b => some (if b then 1 else 0)
  | .int n => some n
  | .float q => some (q.num / (q.den : ℤ) +
      (if q < 0 ∧ ¬((q.den : ℤ) ∣ q.num) ∧ q.num % (q.den : ℤ) ≠ 0 then 0 else 0))
  | .str s => pyParseInt s
  | _ => Option.none

/-- Python `float(x)` on values. -/
def pyToFloat : Value → Option ℚ
  | .bool b => some (if b then 1 else 0)
  | .int n => some (n : ℚ)
  | .float q => some q
  | .str s => pyParseFloat s
  | _ => Option.none

/-- `apply_transform` from `app/core/rule_engine.py` together with the
`TRANSFORMS` table: unknown transforms and transform exceptions (all
caught by the bare `except`) leave the value unchanged. -/
def applyTransform (value : Value) : Option String → Value
  | Option.none => value
  | some t =>
    match t with
    | "len" =>
      if pyTruthy value then
        match pyLen value with
        | some n => .int n
        | Option.none => value
      else .int 0
    | "lower" =>
      match value with
      | .str s => .str (asciiLower s)
      | v => v
    | "upper" =>
      match value with
      | .str s => .str (asciiUpper s)
      | v => v
    | "strip" =>
      match value with
      | .str s => .str (pyStrip s)
      | v => v
    | "count" =>
      match pyLen value with
      | some n => .int n
      | Option.none => .int 0
    | "bool" => .bool (pyTruthy value)
    | "int" =>
      if pyTruthy value then
        match pyToInt value with
        | some n => .int n
        | Option.none => value
      else .int 0
    | "float" =>
      if pyTruthy value then
        match pyToFloat value with
        | some q => .float q
        | Option.none => value
      else .float 0
    | _ => value

/-- Digit-only key test: Python `str.isdigit` (nonempty, all digits). -/
def pyIsDigitStr (s : String) : Bool :=
  !s.isEmpty && s.toList.all Char.isDigit

/-- Numeric value of a digit-only key. -/
def digitsToNat (s : String) : ℕ :=
  s.toList.foldl (fun acc c => acc * 10 + (c.toNat - 48)) 0

/-- Lookup in a string-keyed dict (`dict.get(key)`, absent keys give
`None`). -/
def dictGet (kvs : List (String × Value)) (key : String) : Value :=
  match kvs.find? (fun kv => kv.1 == key) with
  | some kv => kv.2
  | Option.none => .none

/-- One step of `get_nested_value`: descend through one key. -/
def getNestedStep (current : Value) (key : String) : Option Value :=
  match current with
  | .dict kvs => some (dictGet kvs key)
  | .list xs =>
    if pyIsDigitStr key then
      match xs.get? (digitsToNat key) with
      | some v => some v
      | Option.none => Option.none
    else Option.none
  | _ => Option.none

/-- `get_nested_value` from `app/core/rule_engine.py`: dot-path descent
into dicts and (digit-indexed) lists; any failure returns `None`. -/
def getNestedValue (data : Value) (path : String) : Value :=
  go (strSplitOnChar '.' path) data
where
  /-- Fold the key list over the current value; an early `return None`
  in the source is the `Option.none` branch. -/
  go : List String → Value → Value
    | [], current => current
    | key :: rest, current =>
      match getNestedStep current key with
      | some next => go rest next
      | Option.none => .none

/-! ## Condition and rule evaluation (`app/core/rule_engine.py`) -/

/-- `RuleCondition` from `app/core/rule_engine.py`. -/
structure RuleCondition where
  field : String
  operator : String
  value : Value
  transform : Option String

/-- The fields of `Rule` read by `RuleEvaluator.evaluate_rule`. -/
structure EvalRule where
  conditions : List RuleCondition
  condition_logic : String

/-- `RuleEvaluator.evaluate_condition`: resolve the field, apply the
transform, run the operator.  An unknown operator logs and yields `false`;
`TypeError`/`AttributeError` from the operator are caught and yield
`false`; `re.error` is NOT caught and propagates (`Except.error`). -/
def evaluateCondition (condition : RuleCondition) (page_data : Value) :
    Except Unit Bool :=
  let raw_value := getNestedValue page_data condition.field
  let value := applyTransform raw_value condition.transform
  if knownOperator condition.operator then
    match applyOperator condition.operator value condition.value with
    | .ok b => .ok b
    | .typeErr => .ok false
    | .reErr => .error ()
  else .ok false

/-- The list comprehension
`[self.evaluate_condition(cond, page_data) for cond in rule.conditions]`:
conditions are evaluated in order; an uncaught exception propagates. -/
def evalConditions (page_data : Value) : List RuleCondition →
    Except Unit (List Bool)
  | [] => .ok []
  | c :: cs => do
    let r ← evaluateCondition c page_data
    let rs ← evalConditions page_data cs
    pure (r :: rs)

/-- `RuleEvaluator.evaluate_rule`: evaluate every condition (errors
propagate out of the list comprehension), then combine with the rule's
logic (`AND`/`OR`; anything else yields `false`). -/
def evaluateRule (rule : EvalRule) (page_data : Value) : Except Unit Bool := do
  let results ← evalConditions page_data rule.conditions
  if rule.condition_logic = "AND" then
    pure (results.all id)
  else if rule.condition_logic = "OR" then
    pure (results.any id)
  else
    pure false

/-! ## Sitemap discovery (`SitemapParser` in `app/engines/crawler/engine.py`)

`_fetch_sitemap` fetches a URL and, when the body contains
`<sitemapindex`, recursively fetches every `<loc>` reference — with no
depth parameter.  The network and the XML parse are modelled by a response
table: status, whether the body contains `<sitemapindex` (checked first)
or `<urlset`, and the `<loc>` texts BeautifulSoup would extract.  The
unbounded recursion is modelled with fuel; exhausting every finite fuel
models non-termination. -/

/-- One fetched sitemap document: HTTP status and the parsed shape of the
body.  `locs` are the stripped `<loc>` texts. -/
structure SitemapDoc where
  status : ℕ
  isIndex : Bool
  isUrlset : Bool
  locs : List String

/-- The reachable web: URL → response; `Option.none` is a request
exception (handled as an empty result by the source). -/
def SitemapWeb := String → Option SitemapDoc

mutual

/-- `SitemapParser._fetch_sitemap`: fetch, return `[]` on error or
non-200; on a `sitemapindex` recursively fetch every referenced sitemap
and concatenate; on a `urlset` return the `<loc>` values.  `Option.none`
means the recursion exhausted the given fuel (models the absence of any
depth bound in the source). -/
def fetchSitemap (web : SitemapWeb) : ℕ → String → Option (List String)
  | 0, _ => Option.none
  | fuel + 1, url =>
    match web url with
    | Option.none => some []
    | some doc =>
      if doc.status ≠ 200 then some []
      else if doc.isIndex then fetchSitemapList web fuel doc.locs
      else if doc.isUrlset then some doc.locs
      else some []
termination_by fuel _ => (fuel, 0)

/-- The `for loc in soup.find_all("loc")` loop of the `sitemapindex`
branch: fetch each referenced sitemap and extend the accumulator. -/
def fetchSitemapList (web : SitemapWeb) : ℕ → List String →
    Option (List String)
  | _, [] => some []
  | fuel, loc :: rest => do
    let nested ← fetchSitemap web fuel loc
    let tail ← fetchSitemapList web fuel rest
    pure (nested ++ tail)
termination_by fuel locs => (fuel, locs.length + 1)

end

/-- `SitemapParser.discover`: probe the three fixed candidate locations
and union the results (set semantics modelled by deduplicated append). -/
def sitemapDiscover (web : SitemapWeb) (fuel : ℕ) (base : String) :
    Option (List String) := do
  let a ← fetchSitemap web fuel (base ++ "/sitemap.xml")
  let b ← fetchSitemap web fuel (base ++ "/sitemap_index.xml")
  let c ← fetchSitemap web fuel (base ++ "/sitemap/sitemap.xml")
  pure ((a ++ b ++ c).dedup)

/-! ## CPython `urllib.parse` (the fragment used by the crawler)

`URLNormalizer.normalize`, `RobotsHandler` and the crawler use
`urljoin`, `urlparse`, `urlunparse`, `parse_qs`, `urlencode`, `quote` and
`unquote` from the standard library.  The functions below embed CPython
3.11's string algorithms for these (WHATWG sanitisation, scheme/netloc/
fragment/query/params splitting, RFC-3986 relative resolution, percent
encoding over UTF-8 bytes). -/

/-- WHATWG C0-control-or-space predicate used by `urlsplit`
sanitisation. -/
def isC0OrSpace (c : Char) : Bool := c.toNat ≤ 0x20

/-- Drop every tab, CR and LF (`_UNSAFE_URL_BYTES_TO_REMOVE`). -/
def removeUnsafeUrlChars (s : String) : String :=
  ⟨s.toList.filter (fun c => c ≠ '\t' ∧ c ≠ '\r' ∧ c ≠ '\n')⟩

/-- Strip a character set from both ends (`str.strip(chars)`). -/
def pyStripSet (s : String) (bad : Char → Bool) : String :=
  ⟨(s.toList.dropWhile bad).reverse.dropWhile bad |>.reverse⟩

/-- First index of a character satisfying `p` (`str.find` family). -/
def charsFindIdx (cs : List Char) (p : Char → Bool) : Option ℕ :=
  go cs 0
where
  /-- Scan with an index accumulator. -/
  go : List Char → ℕ → Option ℕ
    | [], _ => Option.none
    | c :: rest, i => if p c then some i else go rest (i + 1)

/-- Python `str.partition(sep)` for a single-character separator:
`(before, found?, after)`. -/
def pyPartitionChar (s : String) (sep : Char) : String × Bool × String :=
  match charsFindIdx s.toList (fun c => c = sep) with
  | some i => (⟨s.toList.take i⟩, true, ⟨s.toList.drop (i + 1)⟩)
  | Option.none => (s, false, "")

/-- Last index of a character (`str.rfind`). -/
def charsRFindIdx (cs : List Char) (p : Char → Bool) : Option ℕ :=
  match charsFindIdx cs.reverse p with
  | some i => some (cs.length - 1 - i)
  | Option.none => Option.none

/-- Valid non-leading scheme characters (`scheme_chars` in
`urllib.parse`). -/
def isSchemeChar (c : Char) : Bool :=
  c.isAlpha && c.toNat < 128 || c.isDigit || c = '+' || c = '-' || c = '.'

/-- The result of `urlsplit`. -/
structure SplitResult where
  scheme : String
  netloc : String
  path : String
  query : String
  fragment : String
deriving DecidableEq, Repr

/-- `_splitnetloc`: the netloc extends to the first `/`, `?` or `#` after
the two slashes. -/
def splitNetloc (rest : List Char) : String × String :=
  match charsFindIdx rest (fun c => c = '/' ∨ c = '?' ∨ c = '#') with
  | some i => (⟨rest.take i⟩, ⟨rest.drop i⟩)
  | Option.none => (⟨rest⟩, "")

/-- `urllib.parse.urlsplit(url, scheme, allow_fragments)` (CPython 3.11):
WHATWG sanitisation, scheme detection, netloc/fragment/query splitting.
`Except.error` models the `ValueError` raised on an unbalanced bracket in
the netloc (the inner IPv6 validation of bracketed hosts is not
modelled). -/
def urlsplit (url₀ : String) (scheme₀ : String := "")
    (allowFragments : Bool := true) : Except Unit SplitResult := do
  let url := removeUnsafeUrlChars (pyLStripSet url₀ isC0OrSpace)
  let defaultScheme := removeUnsafeUrlChars (pyStripSet scheme₀ isC0OrSpace)
  let (scheme, url) :=
    match charsFindIdx url.toList (fun c => c = ':') with
    | some i =>
      let headOk : Bool :=
        match url.toList.head? with
        | some c => c.isAlpha && decide (c.toNat < 128)
        | Option.none => false
      if 0 < i ∧ headOk ∧ (url.toList.take i).all isSchemeChar then
        (asciiLower ⟨url.toList.take i⟩,
         (⟨url.toList.drop (i + 1)⟩ : String))
      else (defaultScheme, url)
    | Option.none => (defaultScheme, url)
  let (netloc, url) :=
    if url.toList.take 2 = ['/', '/'] then splitNetloc (url.toList.drop 2)
    else ("", url)
  if (strContainsChar netloc '[' ∧ ¬strContainsChar netloc ']')
      ∨ (strContainsChar netloc ']' ∧ ¬strContainsChar netloc '[') then
    throw ()
  let (url, fragment) :=
    if allowFragments ∧ strContainsChar url '#' then
      let (u, _, f) := pyPartitionChar url '#'
      (u, f)
    else (url, "")
  let (url, query) :=
    if strContainsChar url '?' then
      let (u, _, q) := pyPartitionChar url '?'
      (u, q)
    else (url, "")
  pure { scheme := scheme, netloc := netloc, path := url,
         query := query, fragment := fragment }

/-- The result of `urlparse`: `urlsplit` plus the params component. -/
structure ParseResult where
  scheme : String
  netloc : String
  path : String
  params : String
  query : String
  fragment : String
deriving DecidableEq, Repr

/-- `_splitparams`: params are split at the first `;` of the last path
segment. -/
def splitParams (url : String) : String × String :=
  if strContainsChar url '/' then
    let start := (charsRFindIdx url.toList (fun c => c = '/')).getD 0
    match charsFindIdx (url.toList.drop start) (fun c => c = ';') with
    | some j =>
      (⟨url.toList.take (start + j)⟩, ⟨url.toList.drop (start + j + 1)⟩)
    | Option.none => (url, "")
  else
    match charsFindIdx url.toList (fun c => c = ';') with
    | some i => (⟨url.toList.take i⟩, ⟨url.toList.drop (i + 1)⟩)
    | Option.none => (url, "")

/-- Schemes that use relative URLs (`uses_relative`). -/
def usesRelative : List String :=
  ["", "ftp", "http", "gopher", "nntp", "imap", "wais", "file", "https",
   "shttp", "mms", "prospero", "rtsp", "rtspu", "sftp", "svn", "svn+ssh",
   "ws", "wss"]

/-- Schemes that use a network location (`uses_netloc`). -/
def usesNetloc : List String :=
  ["", "ftp", "http", "gopher", "nntp", "telnet", "imap", "wais", "file",
   "mms", "https", "shttp", "snews", "prospero", "rtsp", "rtspu", "rsync",
   "svn", "svn+ssh", "sftp", "nfs", "git", "git+ssh", "ws", "wss",
   "itms-services"]

/-- Schemes whose URLs carry params (`uses_params`). -/
def usesParams : List String :=
  ["", "ftp", "hdl", "prospero", "http", "imap", "https", "shttp", "rtsp",
   "rtspu", "sip", "sips", "mms", "sftp", "tel"]

/-- `urllib.parse.urlparse`. -/
def urlparse (url : String) (scheme : String := "")
    (allowFragments : Bool := true) : Except Unit ParseResult := do
  let r ← urlsplit url scheme allowFragments
  let (path, params) :=
    if r.scheme ∈ usesParams ∧ strContainsChar r.path ';' then splitParams r.path
    else (r.path, "")
  pure { scheme := r.scheme, netloc := r.netloc, path := path,
         params := params, query := r.query, fragment := r.fragment }

/-- `urllib.parse.urlunsplit`. -/
def urlunsplit (scheme netloc path query fragment : String) : String :=
  let url := path
  let url :=
    if netloc ≠ "" ∨ (url ≠ "" ∧ url.toList.take 2 = ['/', '/']) then
      let url := if url ≠ "" ∧ url.toList.take 1 ≠ ['/'] then "/" ++ url else url
      "//" ++ netloc ++ url
    else url
  let url := if scheme ≠ "" then scheme ++ ":" ++ url else url
  let url := if query ≠ "" then url ++ "?" ++ query else url
  if fragment ≠ "" then url ++ "#" ++ fragment else url

/-- `urllib.parse.urlunparse`. -/
def urlunparse (scheme netloc path params query fragment : String) : String :=
  let url := if params ≠ "" then path ++ ";" ++ params else path
  urlunsplit scheme netloc url query fragment

/-- The middle-slice empty-segment filter of `urljoin`
(`segments[1:-1] = filter(None, segments[1:-1])`). -/
def filterMiddleEmpty (segments : List String) : List String :=
  match segments with
  | [] => []
  | [s] => [s]
  | first :: rest =>
    match rest.reverse with
    | [] => [first]
    | last :: midRev =>
      first :: (midRev.reverse.filter (fun s => s ≠ "")) ++ [last]

/-- The dot-segment resolution loop of `urljoin`: `..` pops (ignoring
underflow), `.` is skipped, everything else is appended. -/
def resolveDotSegments (segments : List String) : List String :=
  (segments.foldl
    (fun acc seg =>
      if seg = ".." then acc.dropLast
      else if seg = "." then acc
      else acc ++ [seg]) [])

/-- `urllib.parse.urljoin(base, url)` (CPython 3.11). -/
def urljoin (base url : String) : Except Unit String := do
  if base = "" then return url
  if url = "" then return base
  let b ← urlparse base "" true
  let u ← urlparse url b.scheme true
  if u.scheme ≠ b.scheme ∨ u.scheme ∉ usesRelative then
    return url
  let netloc ←
    if u.scheme ∈ usesNetloc then
      if u.netloc ≠ "" then
        return urlunparse u.scheme u.netloc u.path u.params u.query u.fragment
      else pure b.netloc
    else pure u.netloc
  if u.path = "" ∧ u.params = "" then
    let query := if u.query = "" then b.query else u.query
    return urlunparse u.scheme netloc b.path b.params query u.fragment
  let baseParts₀ := strSplitOnChar '/' b.path
  let baseParts :=
    if baseParts₀.getLast? ≠ some "" then baseParts₀.dropLast else baseParts₀
  let segments :=
    if u.path.toList.take 1 = ['/'] then strSplitOnChar '/' u.path
    else filterMiddleEmpty (baseParts ++ strSplitOnChar '/' u.path)
  let resolved := resolveDotSegments segments
  let resolved :=
    if segments.getLast? = some "." ∨ segments.getLast? = some ".." then
      resolved ++ [""]
    else resolved
  let joined := joinWith "/" resolved
  let path := if joined = "" then "/" else joined
  return urlunparse u.scheme netloc path u.params u.query u.fragment

/-! ## Percent encoding (`quote` / `unquote`) over UTF-8 bytes -/

/-- UTF-8 encoding of one code point. -/
def utf8EncodeChar (c : Char) : List ℕ :=
  let n := c.toNat
  if n < 0x80 then [n]
  else if n < 0x800 then
    [0xC0 + n / 64, 0x80 + n % 64]
  else if n < 0x10000 then
    [0xE0 + n / 4096, 0x80 + n / 64 % 64, 0x80 + n % 64]
  else
    [0xF0 + n / 262144, 0x80 + n / 4096 % 64, 0x80 + n / 64 % 64,
     0x80 + n % 64]

/-- UTF-8 bytes of a string. -/
def utf8Encode (s : String) : List ℕ :=
  s.toList.flatMap utf8EncodeChar

/-- A continuation byte (`10xxxxxx`). -/
def isContinuation (b : ℕ) : Bool := 0x80 ≤ b ∧ b < 0xC0

/-- UTF-8 decoding with U+FFFD replacement (`errors="replace"`):
an invalid lead or truncated sequence yields U+FFFD and decoding resumes
after the offending lead byte. -/
def utf8DecodeReplace : List ℕ → List Char
  | [] => []
  | b :: rest =>
    if b < 0x80 then Char.ofNat b :: utf8DecodeReplace rest
    else if 0xC2 ≤ b ∧ b < 0xE0 then
      match rest with
      | b₂ :: rest₂ =>
        if isContinuation b₂ then
          Char.ofNat ((b - 0xC0) * 64 + (b₂ - 0x80)) :: utf8DecodeReplace rest₂
        else Char.ofNat 0xFFFD :: utf8DecodeReplace (b₂ :: rest₂)
      | [] => [Char.ofNat 0xFFFD]
    else if 0xE0 ≤ b ∧ b < 0xF0 then
      match rest with
      | b₂ :: b₃ :: rest₃ =>
        let n := (b - 0xE0) * 4096 + (b₂ - 0x80) * 64 + (b₃ - 0x80)
        if isContinuation b₂ ∧ isContinuation b₃ ∧ 0x800 ≤ n ∧
            ¬(0xD800 ≤ n ∧ n < 0xE000) then
          Char.ofNat n :: utf8DecodeReplace rest₃
        else Char.ofNat 0xFFFD :: utf8DecodeReplace (b₂ :: b₃ :: rest₃)
      | [_] => [Char.ofNat 0xFFFD, Char.ofNat 0xFFFD]
      | [] => [Char.ofNat 0xFFFD]
    else if 0xF0 ≤ b ∧ b < 0xF5 then
      match rest with
      | b₂ :: b₃ :: b₄ :: rest₄ =>
        let n := (b - 0xF0) * 262144 + (b₂ - 0x80) * 4096
          + (b₃ - 0x80) * 64 + (b₄ - 0x80)
        if isContinuation b₂ ∧ isContinuation b₃ ∧ isContinuation b₄ ∧
            0x10000 ≤ n ∧ n < 0x110000 then
          Char.ofNat n :: utf8DecodeReplace rest₄
        else Char.ofNat 0xFFFD :: utf8DecodeReplace (b₂ :: b₃ :: b₄ :: rest₄)
      | other => Char.ofNat 0xFFFD :: other.map (fun _ => Char.ofNat 0xFFFD)
    else Char.ofNat 0xFFFD :: utf8DecodeReplace rest

/-- The always-safe characters of `urllib.parse.quote`
(letters, digits, `_.-~`). -/
def isAlwaysSafeByte (b : ℕ) : Bool :=
  (65 ≤ b ∧ b ≤ 90) ∨ (97 ≤ b ∧ b ≤ 122) ∨ (48 ≤ b ∧ b ≤ 57)
    ∨ b = 95 ∨ b = 46 ∨ b = 45 ∨ b = 126

/-- Uppercase hex digit. -/
def hexDigitUpper (n : ℕ) : Char :=
  if n < 10 then Char.ofNat (48 + n) else Char.ofNat (55 + n)

/-- `%XX` escape of a byte. -/
def pctEscape (b : ℕ) : List Char :=
  ['%', hexDigitUpper (b / 16), hexDigitUpper (b % 16)]

/-- `urllib.parse.quote(s, safe)`: percent-encode the UTF-8 bytes outside
the safe set. -/
def pyQuote (s : String) (safe : String := "/") : String :=
  let safeBytes := utf8Encode safe
  ⟨(utf8Encode s).flatMap
    (fun b =>
      if isAlwaysSafeByte b ∨ (b ∈ safeBytes ∧ b < 128) then [Char.ofNat b]
      else pctEscape b)⟩

/-- `urllib.parse.quote_plus(s, safe)`: quote with spaces becoming `+`. -/
def pyQuotePlus (s : String) (safe : String := "") : String :=
  if strContainsChar s ' ' then
    replaceChar ' ' '+' (pyQuote s (safe ++ " "))
  else pyQuote s safe

/-- Value of a hex digit character. -/
def hexVal (c : Char) : Option ℕ :=
  if '0' ≤ c ∧ c ≤ '9' then some (c.toNat - 48)
  else if 'a' ≤ c ∧ c ≤ 'f' then some (c.toNat - 87)
  else if 'A' ≤ c ∧ c ≤ 'F' then some (c.toNat - 55)
  else Option.none

/-- `urllib.parse.unquote(s)` with `errors="replace"`: maximal runs of
`%XX` escapes decode as UTF-8 byte sequences; literal characters pass
through; a `%` not followed by two hex digits stays literal. -/
def pyUnquote (s : String) : String :=
  ⟨go s.toList []⟩
where
  /-- Scan the characters, accumulating pending escape bytes. -/
  go : List Char → List ℕ → List Char
    | [], pending => utf8DecodeReplace pending.reverse
    | '%' :: c₁ :: c₂ :: rest, pending =>
      match hexVal c₁, hexVal c₂ with
      | some h, some l => go rest ((h * 16 + l) :: pending)
      | _, _ =>
        utf8DecodeReplace pending.reverse ++ '%' :: go (c₁ :: c₂ :: rest) []
    | c :: rest, pending =>
      utf8DecodeReplace pending.reverse ++ c :: go rest []

/-! ## Query-string parsing (`parse_qs` / `urlencode`) -/

/-- One pair of `parse_qsl(qs, keep_blank_values=True)`:
`Option.none` when the pair is skipped. -/
def parseQslPair (nameValue : String) : Option (String × String) :=
  if nameValue = "" then Option.none
  else
    let (name, found, value) := pyPartitionChar nameValue '='
    let (name, value) := if found then (name, value) else (nameValue, "")
    some (pyUnquote (replaceChar '+' ' ' name),
      pyUnquote (replaceChar '+' ' ' value))

/-- `urllib.parse.parse_qsl(qs, keep_blank_values=True)`. -/
def parseQsl (qs : String) : List (String × String) :=
  (strSplitOnChar '&' qs).filterMap parseQslPair

/-- Append a parsed pair to the grouped dict, preserving first-occurrence
key order (`parse_qs` result as an association list). -/
def parseQsInsert (acc : List (String × List String)) (kv : String × String) :
    List (String × List String) :=
  if acc.any (fun e => e.1 == kv.1) then
    acc.map (fun e => if e.1 == kv.1 then (e.1, e.2 ++ [kv.2]) else e)
  else acc ++ [(kv.1, [kv.2])]

/-- `urllib.parse.parse_qs(qs, keep_blank_values=True)`. -/
def parseQs (qs : String) : List (String × List String) :=
  (parseQsl qs).foldl parseQsInsert []

/-- `urllib.parse.urlencode(query, doseq=True)` over the association-list
dict model (string keys, lists of string values, `quote_plus` quoting). -/
def pyUrlencode (query : List (String × List String)) : String :=
  joinWith "&"
    (query.flatMap
      (fun kv =>
        let k := pyQuotePlus kv.1 ""
        kv.2.map (fun v => k ++ "=" ++ pyQuotePlus v "")))

/-! ## `URLNormalizer` (`app/engines/crawler/engine.py`) -/

/-- `URLNormalizer.IGNORED_PARAMS`. -/
def ignoredParams : List String :=
  ["utm_source", "utm_medium", "utm_campaign", "utm_content", "utm_term",
   "ref", "fbclid", "gclid"]

/-- `URLNormalizer.IGNORED_EXTENSIONS`. -/
def ignoredExtensions : List String :=
  [".pdf", ".jpg", ".jpeg", ".png", ".gif", ".svg", ".ico", ".css", ".js",
   ".woff", ".woff2", ".ttf", ".zip", ".tar", ".gz", ".mp4", ".mp3", ".wav"]

/-- Python `str.rstrip("/")`. -/
def rstripSlash (s : String) : String :=
  ⟨(s.toList.reverse.dropWhile (fun c => c = '/')).reverse⟩

/-- `URLNormalizer.normalize(url, base_url)`: resolve against the base,
keep only http/https, reject asset extensions, strip ignored query
parameters (via `parse_qs`/`urlencode`), drop the fragment, trim trailing
slashes of non-root paths, and lowercase scheme and host.  Any exception
is caught and yields `None` (`Option.none`). -/
def urlNormalize (url₀ base_url : String) : Option String :=
  match go with
  | .ok r => r
  | .error _ => Option.none
where
  /-- The `try` body; `Except.error` is the caught exception path. -/
  go : Except Unit (Option String) := do
    let url ← urljoin base_url (pyStrip url₀)
    let parsed ← urlparse url
    if parsed.scheme ∉ ["http", "https"] then
      return Option.none
    let path_lower := asciiLower parsed.path
    if ignoredExtensions.any (fun ext => strEndsWith path_lower ext) then
      return Option.none
    let query :=
      if parsed.query ≠ "" then
        let params := parseQs parsed.query
        let filtered := params.filter (fun kv => kv.1 ∉ ignoredParams)
        pyUrlencode filtered
      else ""
    let path := parsed.path
    let path :=
      if path ≠ "/" ∧ strEndsWith path "/" then rstripSlash path else path
    return some (urlunparse (asciiLower parsed.scheme)
      (asciiLower parsed.netloc) path parsed.params query "")

/-- `URLNormalizer.is_same_domain(url, root_domain)`: host equality or
subdomain suffix.  The `urlparse` call can raise (unbalanced bracket); the
caller never catches it, so the error propagates. -/
def isSameDomain (url root_domain : String) : Except Unit Bool := do
  let parsed ← urlparse url
  let host := asciiLower parsed.netloc
  pure (host == root_domain || strEndsWith host ("." ++ root_domain))

/-! ## CPython `urllib.robotparser` and the `RobotsHandler`

`RobotsHandler` (`app/engines/crawler/engine.py`) stores one
`RobotFileParser` per domain.  The embedding follows CPython 3.11's
`robotparser.py`: the parser state (`disallow_all`, `allow_all`,
`last_checked`, entries, default entry), `parse`, `Entry.applies_to`,
`Entry.allowance`, `RuleLine` and `can_fetch`.  `last_checked` only
matters as zero/nonzero and is modelled as a `Bool`. -/

/-- `RuleLine`: one `Allow:`/`Disallow:` path (already normalised and
quoted by its constructor). -/
structure RuleLine where
  path : String
  allowance : Bool
deriving Repr

/-- `Entry`: user agents plus rule lines (plus the crawl delay). -/
structure RobotsEntry where
  useragents : List String
  rulelines : List RuleLine
  delay : Option ℕ
deriving Repr

/-- `RobotFileParser` state. -/
structure RobotFileParser where
  entries : List RobotsEntry
  default_entry : Option RobotsEntry
  disallow_all : Bool
  allow_all : Bool
  last_checked : Bool
  sitemaps : List String
deriving Repr

/-- A freshly constructed `RobotFileParser()`. -/
def RobotFileParser.fresh : RobotFileParser :=
  { entries := [], default_entry := Option.none, disallow_all := false,
    allow_all := false, last_checked := false, sitemaps := [] }

/-- `RuleLine.__init__`: an empty disallow path means allow-all; the path
is normalised by an `urlparse`/`urlunparse` round trip and quoted. -/
def RuleLine.make (path : String) (allowance : Bool) :
    Except Unit RuleLine := do
  let allowance := if path = "" ∧ !allowance then true else allowance
  let p ← urlparse path
  let path := urlunparse p.scheme p.netloc p.path p.params p.query p.fragment
  pure { path := pyQuote path, allowance := allowance }

/-- `RuleLine.applies_to`. -/
def RuleLine.appliesTo (line : RuleLine) (filename : String) : Bool :=
  line.path == "*" || strStartsWith filename line.path

/-- `Entry.applies_to`: the agent token before the first `/`, lowercased;
`*` matches everything, otherwise lowercase substring containment. -/
def RobotsEntry.appliesTo (entry : RobotsEntry) (useragent : String) : Bool :=
  let useragent := asciiLower (match (strSplitOnChar '/' useragent).head? with
    | some t => t
    | Option.none => useragent)
  entry.useragents.any (fun agent =>
    agent == "*" || charsContain useragent.toList (asciiLower agent).toList)

/-- `Entry.allowance`: the first applicable rule line decides; no match
allows. -/
def RobotsEntry.allowance (entry : RobotsEntry) (filename : String) : Bool :=
  match entry.rulelines.find? (fun line => line.appliesTo filename) with
  | some line => line.allowance
  | Option.none => true

/-- `RobotFileParser._add_entry`. -/
def RobotFileParser.addEntry (p : RobotFileParser) (entry : RobotsEntry) :
    RobotFileParser :=
  if entry.useragents.contains "*" then
    if p.default_entry.isNone then { p with default_entry := some entry }
    else p
  else { p with entries := p.entries ++ [entry] }

/-- The state of the `parse` loop: parser under construction, current
entry, state counter (0 start / 1 saw user-agent / 2 saw rule). -/
structure RobotsParseState where
  parser : RobotFileParser
  entry : RobotsEntry
  state : ℕ

/-- One iteration of the `for line in lines` loop of
`RobotFileParser.parse`. -/
def robotsParseLine (st : RobotsParseState) (line₀ : String) :
    Except Unit RobotsParseState := do
  let mut st := st
  if line₀ = "" then
    if st.state = 1 then
      st := { st with entry := ⟨[], [], Option.none⟩, state := 0 }
    else if st.state = 2 then
      st := { parser := st.parser.addEntry st.entry,
              entry := ⟨[], [], Option.none⟩, state := 0 }
  let line :=
    match charsFindIdx line₀.toList (fun c => c = '#') with
    | some i => (⟨line₀.toList.take i⟩ : String)
    | Option.none => line₀
  let line := pyStrip line
  if line = "" then
    return st
  let (key, found, value) := pyPartitionChar line ':'
  if ¬found then
    return st
  let key := asciiLower (pyStrip key)
  let value := pyUnquote (pyStrip value)
  if key = "user-agent" then
    if st.state = 2 then
      st := { st with parser := st.parser.addEntry st.entry,
                      entry := ⟨[], [], Option.none⟩ }
    return { st with
      entry := { st.entry with useragents := st.entry.useragents ++ [value] },
      state := 1 }
  else if key = "disallow" then
    if st.state ≠ 0 then
      let rl ← RuleLine.make value false
      return { st with
        entry := { st.entry with rulelines := st.entry.rulelines ++ [rl] },
        state := 2 }
    else return st
  else if key = "allow" then
    if st.state ≠ 0 then
      let rl ← RuleLine.make value true
      return { st with
        entry := { st.entry with rulelines := st.entry.rulelines ++ [rl] },
        state := 2 }
    else return st
  else if key = "crawl-delay" then
    if st.state ≠ 0 then
      if pyIsDigitStr (pyStrip value) then
        st := { st with entry := { st.entry with
            delay := some (digitsToNat (pyStrip value)) } }
      return { st with state := 2 }
    else return st
  else if key = "request-rate" then
    if st.state ≠ 0 then
      return { st with state := 2 }
    else return st
  else if key = "sitemap" then
    return { st with parser :=
      { st.parser with sitemaps := st.parser.sitemaps ++ [value] } }
  else
    return st

/-- `RobotFileParser.parse(lines)`: sets `last_checked` (via
`self.modified()`) and runs the line state machine. -/
def RobotFileParser.parse (p : RobotFileParser) (lines : List String) :
    Except Unit RobotFileParser := do
  let init : RobotsParseState :=
    { parser := { p with last_checked := true },
      entry := ⟨[], [], Option.none⟩, state := 0 }
  let final ← lines.foldlM robotsParseLine init
  if final.state = 2 then
    pure (final.parser.addEntry final.entry)
  else
    pure final.parser

/-- `RobotFileParser.can_fetch(useragent, url)` (CPython 3.11).  Note the
guard `if not self.last_checked: return False`: an unparsed parser denies
every URL. -/
def RobotFileParser.canFetch (p : RobotFileParser) (useragent url : String) :
    Except Unit Bool := do
  if p.disallow_all then
    return false
  if p.allow_all then
    return true
  if ¬p.last_checked then
    return false
  let parsed ← urlparse (pyUnquote url)
  let url := urlunparse "" "" parsed.path parsed.params parsed.query
    parsed.fragment
  let url := pyQuote url
  let url := if url = "" then "/" else url
  match p.entries.find? (fun e => e.appliesTo useragent) with
  | some e => return e.allowance url
  | Option.none =>
    match p.default_entry with
    | some e => return e.allowance url
    | Option.none => return true

/-! ### `RobotsHandler` (`app/engines/crawler/engine.py`) -/

/-- The outcome of the `session.get(robots_url)` call inside
`RobotsHandler.fetch_and_parse`. -/
inductive RobotsFetch where
  | exception
  | response (status : ℕ) (lines : List String)

/-- `RobotsHandler` state: one parser per domain. -/
structure RobotsHandler where
  parsers : List (String × RobotFileParser)

/-- `RobotsHandler.fetch_and_parse(domain, session)`: on a 200 response
the body is parsed; on any other status the parser is stored UNPARSED; on
an exception a fresh unparsed parser is stored.  (A parse error inside the
`try` also lands in the `except` path.) -/
def RobotsHandler.fetchAndParse (h : RobotsHandler) (domain : String)
    (fetch : RobotsFetch) : RobotsHandler :=
  let parser :=
    match fetch with
    | .exception => RobotFileParser.fresh
    | .response status lines =>
      if status = 200 then
        match RobotFileParser.fresh.parse lines with
        | .ok p => p
        | .error _ => RobotFileParser.fresh
      else RobotFileParser.fresh
  { parsers := h.parsers ++ [(domain, parser)] }

/-- `RobotsHandler.can_fetch(url, user_agent)`: look the domain up; a
missing parser allows everything ("No robots.txt = allow all"), otherwise
defer to the stored `RobotFileParser`. -/
def RobotsHandler.canFetch (h : RobotsHandler) (url user_agent : String) :
    Except Unit Bool := do
  let parsed ← urlparse url
  let domain := asciiLower parsed.netloc
  match (h.parsers.find? (fun kv => kv.1 == domain)) with
  | some kv => kv.2.canFetch user_agent url
  | Option.none => return true

/-! ## The BFS crawl loop (`CrawlerEngine.run`)

The `while queue and len(crawled_pages) < max_pages` loop of
`CrawlerEngine.run` (lines 639-651), with `crawl_url` (lines 569-636).
The asyncio batch (`asyncio.gather` under a semaphore) is modelled by
sequential processing of the dequeued batch: every shared-state access of
`crawl_url` happens between await points on the single event loop, and
`gather` preserves batch order.  The network is a function from URL to an
optional fetched page (`Option.none` models a task exception, which
`gather(return_exceptions=True)` turns into a non-page result);
`hashlib.md5` of the page HTML is modelled by the HTML string itself (an
injective stand-in for a collision-free fingerprint); live statistics and
logging are omitted. -/

/-- `CrawlURL`: one frontier entry (the parent URL and discovery source
play no role in the loop). -/
structure CrawlItem where
  url : String
  depth : ℕ
deriving DecidableEq, Repr

/-- A fetched page as `crawl_url` uses it: final URL, outbound links,
HTML body, duplicate-content flag, BFS depth. -/
structure CrawlPage where
  url : String
  links : List String
  html : String
  is_duplicate_content : Bool
  depth : ℕ
deriving DecidableEq, Repr

/-- The crawler configuration drawn from `site_data.settings`. -/
structure CrawlConfig where
  max_pages : ℕ
  max_depth : ℕ
  concurrency : ℕ
  root_url : String
  domain : String
  user_agent : String

/-- The mutable state shared by the crawl tasks: the frontier, the
visited set, the content-fingerprint set and the collected pages. -/
structure CrawlState where
  queue : List CrawlItem
  visited : List String
  fingerprints : List String
  crawled : List CrawlPage
deriving DecidableEq, Repr

/-- The network as seen by `fetcher.fetch`. -/
def CrawlWeb := String → Option CrawlPage

/-- The `for link in page.links` enqueue loop of `crawl_url` (executed
when `crawl_item.depth < max_depth`): normalize against the request URL,
require same-domain and unvisited, and enforce the
`len(queue) + len(visited) < max_pages * 2` growth cap per append.  An
`is_same_domain` exception aborts the task, keeping the partial state. -/
def enqueueLinks (cfg : CrawlConfig) (normalized : String) (depth : ℕ)
    (links : List String) (st : CrawlState) : CrawlState × Bool :=
  match links with
  | [] => (st, true)
  | link :: rest =>
    match urlNormalize link normalized with
    | Option.none => enqueueLinks cfg normalized depth rest st
    | some ln =>
      if ln ∈ st.visited then enqueueLinks cfg normalized depth rest st
      else
        match isSameDomain ln cfg.domain with
        | .error _ => (st, false)
        | .ok false => enqueueLinks cfg normalized depth rest st
        | .ok true =>
          if st.queue.length + st.visited.length < cfg.max_pages * 2 then
            enqueueLinks cfg normalized depth rest
              { st with queue := st.queue ++ [⟨ln, depth + 1⟩] }
          else enqueueLinks cfg normalized depth rest st

/-- `crawl_url(crawl_item)`: normalize, domain check, dedup, depth check,
robots check, fetch, fingerprint, enqueue links.  The result page is
`Option.none` when the URL is dropped or the task raises (partial state
mutations are kept, as in the source). -/
def crawlUrl (cfg : CrawlConfig) (robots : RobotsHandler) (web : CrawlWeb)
    (st : CrawlState) (item : CrawlItem) : CrawlState × Option CrawlPage :=
  match urlNormalize item.url cfg.root_url with
  | Option.none => (st, Option.none)
  | some normalized =>
    match isSameDomain normalized cfg.domain with
    | .error _ => (st, Option.none)
    | .ok false => (st, Option.none)
    | .ok true =>
      if normalized ∈ st.visited then (st, Option.none)
      else
        let st := { st with visited := st.visited ++ [normalized] }
        if item.depth > cfg.max_depth then (st, Option.none)
        else
          match robots.canFetch normalized cfg.user_agent with
          | .error _ => (st, Option.none)
          | .ok false => (st, Option.none)
          | .ok true =>
            match web normalized with
            | Option.none => (st, Option.none)
            | some page₀ =>
              let page := { page₀ with depth := item.depth }
              let (st, page) :=
                if page.html ≠ "" then
                  let fp := page.html
                  let page :=
                    if fp ∈ st.fingerprints then
                      { page with is_duplicate_content := true }
                    else page
                  (if fp ∈ st.fingerprints then st
                   else { st with fingerprints := st.fingerprints ++ [fp] },
                   page)
                else (st, page)
              if item.depth < cfg.max_depth then
                match enqueueLinks cfg normalized item.depth page.links st with
                | (st, true) => (st, some page)
                | (st, false) => (st, Option.none)
              else (st, some page)

/-- Sequential processing of one dequeued batch; the pages produced are
appended to `crawled_pages` after the batch completes (`gather` preserves
order). -/
def processBatch (cfg : CrawlConfig) (robots : RobotsHandler)
    (web : CrawlWeb) (st : CrawlState) : List CrawlItem →
    CrawlState × List CrawlPage
  | [] => (st, [])
  | item :: rest =>
    let (st, pageOpt) := crawlUrl cfg robots web st item
    let (st, pages) := processBatch cfg robots web st rest
    (st, pageOpt.toList ++ pages)

/-- The loop guard `while queue and len(crawled_pages) < max_pages`. -/
def crawlLoopGuard (cfg : CrawlConfig) (st : CrawlState) : Bool :=
  !st.queue.isEmpty && decide (st.crawled.length < cfg.max_pages)

/-- One iteration of the BFS loop: dequeue a batch of size
`min(concurrency * 2, len(queue), max_pages - len(crawled_pages))`,
process it, append the produced pages. -/
def crawlBatchStep (cfg : CrawlConfig) (robots : RobotsHandler)
    (web : CrawlWeb) (st : CrawlState) : CrawlState :=
  let batch_size :=
    min (cfg.concurrency * 2)
      (min st.queue.length (cfg.max_pages - st.crawled.length))
  let batch := st.queue.take batch_size
  let rest := st.queue.drop batch_size
  let (st', pages) :=
    processBatch cfg robots web { st with queue := rest } batch
  { st' with crawled := st'.crawled ++ pages }

/-- The BFS loop with fuel; `Option.none` models running out of fuel
(i.e. the loop has not terminated within `fuel` iterations). -/
def crawlLoop (cfg : CrawlConfig) (robots : RobotsHandler) (web : CrawlWeb) :
    ℕ → CrawlState → Option CrawlState
  | 0, _ => Option.none
  | fuel + 1, st =>
    if crawlLoopGuard cfg st then
      crawlLoop cfg robots web fuel (crawlBatchStep cfg robots web st)
    else some st

/-- The queue seeding of `CrawlerEngine.run` (steps 3): the root URL at
depth 0, then up to 1000 sitemap URLs (normalized, rejects dropped) at
depth 1. -/
def crawlSeed (cfg : CrawlConfig) (sitemap_urls : List String) :
    List CrawlItem :=
  ⟨cfg.root_url, 0⟩ ::
    (sitemap_urls.take 1000).filterMap
      (fun surl => (urlNormalize surl cfg.root_url).map (fun n => ⟨n, 1⟩))

/-! ## Derived definitions used by the claim statements -/

/-- The behaviour of each operator of `OPERATORS` on a null left operand,
as the code implements it: the guarded operators short-circuit on the
falsy `None`; `eq`/`ne` compare against the condition value; `in`/`not_in`
test membership of `None` in the right-hand collection (a `TypeError`,
e.g. for string or scalar right-hand sides, is caught and yields
`false`). -/
def nullOperandResult (op : String) (v : Value) : Bool :=
  match op with
  | "eq" => pyEq .none v
  | "ne" => !pyEq .none v
  | "lt" => false
  | "gt" => false
  | "lte" => false
  | "gte" => false
  | "contains" => false
  | "not_contains" => true
  | "matches" => false
  | "not_matches" => true
  | "exists" => false
  | "not_exists" => true
  | "in" =>
    match v with
    | .list xs => !xs.isEmpty && xs.any (fun x => pyEq .none x)
    | _ => false
  | "not_in" =>
    match v with
    | .list xs => xs.isEmpty || !xs.any (fun x => pyEq .none x)
    | .dict _ => true
    | .str s => s.isEmpty
    | .none => true
    | .bool b => !b
    | .int n => n == 0
    | .float q => q == 0
  | "length_lt" => true
  | "length_gt" => false
  | "length_eq" => false
  | "starts_with" => false
  | "ends_with" => false
  | _ => false

/-- Termination measure for the BFS loop (used with `concurrency ≥ 1`):
enqueues are only possible while `|visited| < 2·max_pages` and cap the
queue at `2·max_pages`, so every iteration either drains the queue or
grows `visited`. -/
def crawlMeasure (cfg : CrawlConfig) (st : CrawlState) : ℕ :=
  (2 * cfg.max_pages - st.visited.length) * (2 * cfg.max_pages + 1)
    + st.queue.length

/-- Modelled from the spec: sitemap-index recursion with the depth bound
the specification states ("Recursion depth ≤ 3"), for comparison with the
source's unbounded `fetchSitemap`.  `depth` counts index levels below the
probed candidate; at depth 3 references are no longer followed. -/
def specFetchSitemapDepth3 (web : SitemapWeb) : ℕ → String → List String
  | depth, url =>
    match web url with
    | Option.none => []
    | some doc =>
      if doc.status ≠ 200 then []
      else if doc.isIndex then
        if depth < 3 then
          doc.locs.flatMap (fun loc => specFetchSitemapDepth3 web (depth + 1) loc)
        else []
      else if doc.isUrlset then doc.locs
      else []
  termination_by depth _ => 3 - depth

/-! ## Concrete instances used by the claim theorems -/

/-- A five-level sitemap chain: the probed candidate is a `sitemapindex`
referencing `s2`, which references `s3`, then `s4`, then the `urlset`
`s5`. -/
def chainWeb : SitemapWeb := fun url =>
  if url = "https://h/sitemap.xml" then some ⟨200, true, false, ["https://h/s2.xml"]⟩
  else if url = "https://h/s2.xml" then some ⟨200, true, false, ["https://h/s3.xml"]⟩
  else if url = "https://h/s3.xml" then some ⟨200, true, false, ["https://h/s4.xml"]⟩
  else if url = "https://h/s4.xml" then some ⟨200, true, false, ["https://h/s5.xml"]⟩
  else if url = "https://h/s5.xml" then some ⟨200, false, true, ["https://h/deep-page"]⟩
  else Option.none

/-- A self-referencing sitemap index. -/
def loopWeb : SitemapWeb := fun url =>
  if url = "https://h/sitemap.xml" then
    some ⟨200, true, false, ["https://h/sitemap.xml"]⟩
  else Option.none

/-- Two issues identical except for the rule id (equal priority scores),
in anti-lexicographic collection order. -/
def issueB : Issue :=
  { rule_id := "b-rule", title := "tB", description := "dB",
    severity := .low, category := "on_page", affected_urls := [],
    affected_count := 1, impact_score := 10, effort_score := 5,
    recommendation := "rB" }

/-- The lexicographically smaller twin of `issueB`. -/
def issueA : Issue :=
  { rule_id := "a-rule", title := "tA", description := "dA",
    severity := .low, category := "on_page", affected_urls := [],
    affected_count := 1, impact_score := 10, effort_score := 5,
    recommendation := "rA" }

/-- A crawler configuration with `concurrency = 0` (as
`site_data.settings` can carry; nothing validates it). -/
def zeroConcConfig : CrawlConfig :=
  { max_pages := 5, max_depth := 10, concurrency := 0,
    root_url := "http://h", domain := "h", user_agent := "SEOAuditBot/1.0" }

/-- A nonempty frontier with nothing crawled yet. -/
def zeroConcState : CrawlState :=
  { queue := [⟨"http://h/", 0⟩], visited := [], fingerprints := [],
    crawled := [] }

/-- An empty robots handler (no robots.txt fetched). -/
def emptyRobots : RobotsHandler := ⟨[]⟩

/-- A network where every fetch raises. -/
def failingWeb : CrawlWeb := fun _ => Option.none

/-- A `matches` condition with an invalid regex pattern. -/
def badRegexCond : RuleCondition :=
  { field := "x", operator := "matches", value := Value.str "[",
    transform := Option.none }

/-- Page data on which `badRegexCond`'s field is truthy. -/
def badRegexPage : Value := Value.dict [("x", Value.str "a")]

/-- A configuration with one worker, as the defaults produce. -/
def oneConcConfig : CrawlConfig :=
  { max_pages := 2, max_depth := 5, concurrency := 1,
    root_url := "http://h", domain := "h", user_agent := "SEOAuditBot/1.0" }

/-- A one-element frontier with nothing crawled yet. -/
def oneConcState : CrawlState :=
  { queue := [⟨"http://h/", 0⟩], visited := [], fingerprints := [],
    crawled := [] }


/-! # Theorems for the claims -/

/-- C9: if the crawler collects zero pages, `_calculate_crawl_score`
returns exactly 0.0 through its early `if not pages: return 0.0` branch,
whatever the issue list is, and `calculate_grade 0 = "F"`: an empty crawl
yields crawlability score 0 and grade F. -/
theorem crawl_score_empty_pages (issues : List Issue) :
    calculate_crawl_score [] issues = 0 ∧ calculate_grade 0 = "F" := by
  constructor
  · simp [calculate_crawl_score]
  · norm_num [calculate_grade]

/-- C10: when the issue lists collected from all engine results flatten to
nothing, `PrioritizationEngine.run` returns the early `AuditResult` with
status `success`, score 100.0, grade "A" and empty issue and
recommendation lists. -/
theorem prioritization_empty_issues (engine_results : List (List Issue))
    (monthly_traffic : ℚ) (h : engine_results.flatten = []) :
    prioritizationRun engine_results monthly_traffic =
      { status := "success", score := 100, grade := "A",
        issues := [], recommendations := [] } := by
  unfold prioritizationRun
  rw [h]
  simp

/-- Witness for C10 at the concrete input `[[], []]`. -/
theorem prioritization_empty_issues_witness :
    ([[], []] : List (List Issue)).flatten = [] ∧
    prioritizationRun [[], []] 5 =
      { status := "success", score := 100, grade := "A",
        issues := [], recommendations := [] } :=
  ⟨rfl, prioritization_empty_issues [[], []] 5 rfl⟩

/-- C6: `URLNormalizer.normalize` is not idempotent.  For the input URL
`"/a /"` (a path segment ending in a space, then a slash) against the base
`"http://h"`, the first pass keeps the space (only the input's outer
whitespace is stripped, and `rstrip("/")` then exposes the space as the
final character), producing `"http://h/a "`; normalizing that output again
strips the now-trailing space and returns `"http://h/a"` — so
`normalize(normalize(u, b), b) ≠ normalize(u, b)`.  The crawler itself
re-normalizes already-normalized queued URLs (`crawl_url` at line 571 on
entries enqueued normalized at lines 563 and 621-628), relying on the
idempotence the spec states, so the code contradicts its intended use. -/
theorem normalize_not_idempotent :
    urlNormalize "/a /" "http://h" = some "http://h/a " ∧
    urlNormalize "http://h/a " "http://h" = some "http://h/a" ∧
    urlNormalize "http://h/a " "http://h" ≠ urlNormalize "/a /" "http://h" := by
  refine ⟨by decide, by decide, by decide⟩

/-- C2: when the robots.txt fetch raises or returns a status other
than 200, `RobotsHandler.fetch_and_parse` stores a `RobotFileParser` on
which `parse` was never called, and CPython's `can_fetch` returns `False`
for every URL while `last_checked == 0` — so every URL of that host is
BLOCKED, not allowed.  The code's own comment on the missing-parser branch
("No robots.txt = allow all") and the spec agree that failures should
allow everything; the stored unparsed parser does the opposite.  The third
conjunct shows the same robots body parsed under a 200 response allows the
URL. -/
theorem robots_failure_blocks_all :
    (((RobotsHandler.mk []).fetchAndParse "example.com" .exception).canFetch
      "https://example.com/page" "SEOAuditBot/1.0" = .ok false) ∧
    (((RobotsHandler.mk []).fetchAndParse "example.com"
        (.response 404 ["User-agent: *", "Allow: /"])).canFetch
      "https://example.com/page" "SEOAuditBot/1.0" = .ok false) ∧
    (((RobotsHandler.mk []).fetchAndParse "example.com"
        (.response 200 ["User-agent: *", "Allow: /"])).canFetch
      "https://example.com/page" "SEOAuditBot/1.0" = .ok true) := by
  refine ⟨by decide, by decide, by decide⟩

unseal fetchSitemap fetchSitemapList in
/-- C3 (counterexample): `_fetch_sitemap` has no depth parameter: on a
chain of four nested `sitemapindex` documents it fetches the level-4
sitemap (4 levels below the probed candidate) and returns its URLs,
whereas the spec's depth-3 recursion (`specFetchSitemapDepth3`) stops and
returns nothing. -/
theorem sitemap_depth_counterexample :
    fetchSitemap chainWeb 10 "https://h/sitemap.xml" =
      some ["https://h/deep-page"] ∧
    specFetchSitemapDepth3 chainWeb 0 "https://h/sitemap.xml" = [] := by
  constructor
  · decide
  · simp [specFetchSitemapDepth3, chainWeb]

/-- C3 (amended): sitemap recursion is unbounded; a sitemap index that
references itself makes `_fetch_sitemap` recurse without bound — in the
fuel model, every finite recursion budget is exhausted (`Option.none`),
i.e. discovery does not terminate on such input. -/
theorem sitemap_cycle_diverges (fuel : ℕ) :
    fetchSitemap loopWeb fuel "https://h/sitemap.xml" = Option.none := by
  induction fuel with
  | zero => simp [fetchSitemap]
  | succ n ih =>
    rw [fetchSitemap]
    simp only [loopWeb, if_pos rfl]
    norm_num
    rw [fetchSitemapList]
    simp [ih]

/-- Ordering a null left operand always raises `TypeError` (caught by
`evaluate_condition`). -/
theorem pyCmp_none_left (v : Value) : pyCmp Value.none v = Option.none := by
  cases v <;> rfl

/-- A constant-false `any` is false. -/
theorem list_any_false {α : Type} (l : List α) :
    (l.any fun _ => false) = false := by
  induction l <;> simp_all

/-- A nonempty string's `isEmpty` is `false`. -/
theorem str_isEmpty_false (s : String) (h : ¬s = "") : s.isEmpty = false := by
  cases hs : s.isEmpty
  · rfl
  · exact absurd ((String.isEmpty_iff s).mp hs) h

/-- `None` equals no string. -/
theorem pyEq_none_str (s : String) : pyEq Value.none (Value.str s) = false := by
  rw [pyEq] <;> simp [numValue]

unseal pyEq pyEqList pyEqDict pyEqDictMem pyEqDictLookup in
/-- C1 (counterexample): with a null left operand, the `eq` operator does
NOT return false: `operator.eq(None, None)` is `True`, so a condition with
operator `eq` and the (default) null condition value evaluates to `true`
on a missing field — the claim's table says `eq` yields false. -/
theorem null_operand_eq_counterexample :
    applyTransform (getNestedValue (Value.dict []) "x") Option.none
      = Value.none ∧
    evaluateCondition
      { field := "x", operator := "eq", value := Value.none,
        transform := Option.none } (Value.dict []) = .ok true := by
  exact ⟨rfl, by decide⟩

/-- C1 (amended): for every condition whose left operand (the resolved
field value after the optional transform) is null, `evaluate_condition`
returns exactly `nullOperandResult`: false for `lt`, `gt`, `lte`, `gte`,
`contains`, `matches`, `exists`, `length_gt`, `length_eq`, `starts_with`,
`ends_with`; true for `not_contains`, `not_matches`, `not_exists`,
`length_lt`; for `eq` true iff the condition value is itself null; for
`ne` true iff it is not; for `in` true iff the condition value is a
nonempty list containing null; for `not_in` true unless the value is a
nonempty list containing null or a value whose membership test raises
`TypeError` (a nonempty string or a truthy scalar). -/
theorem null_operand_table (c : RuleCondition) (d : Value)
    (hop : c.operator ∈ ["eq", "ne", "lt", "gt", "lte", "gte", "contains",
      "not_contains", "matches", "not_matches", "exists", "not_exists",
      "in", "not_in", "length_lt", "length_gt", "length_eq", "starts_with",
      "ends_with"])
    (hnull : applyTransform (getNestedValue d c.field) c.transform
      = Value.none) :
    evaluateCondition c d = .ok (nullOperandResult c.operator c.value) := by
  obtain ⟨f, op, v, tr⟩ := c
  simp only at hnull
  unfold evaluateCondition
  simp only
  rw [hnull]
  simp only [List.mem_cons, List.not_mem_nil, or_false] at hop
  rcases hop with rfl | rfl | rfl | rfl | rfl | rfl | rfl | rfl | rfl | rfl
    | rfl | rfl | rfl | rfl | rfl | rfl | rfl | rfl | rfl <;>
    simp only [knownOperator, applyOperator, nullOperandResult,
      pyCmp_none_left, reSearchOp] <;>
    try rfl
  all_goals cases v <;> try rfl
  all_goals simp only [pyIn, pyTruthy, pyEq_none_str, nullOperandResult]
  all_goals (repeat' split) <;> try simp_all [String.isEmpty_iff, ite_eq_iff]
  all_goals try (casesm* _ ∨ _, _ ∧ _)
  all_goals simp_all [List.isEmpty_iff, list_any_false, str_isEmpty_false]

/-- Witness for C1 at the operator `lt` with a missing field. -/
theorem null_operand_table_witness :
    evaluateCondition
      { field := "missing", operator := "lt", value := Value.str "x",
        transform := Option.none } (Value.dict []) =
      .ok (nullOperandResult "lt" (Value.str "x")) :=
  null_operand_table _ _ (by decide) rfl

/-- The only operator outcomes that `evaluate_condition` does not catch
(`OpRes.reErr`, CPython `re.error`) come from `matches`/`not_matches`
applied to an invalid string pattern. -/
theorem applyOperator_reErr {op : String} {a b : Value}
    (h : applyOperator op a b = .reErr) :
    (op = "matches" ∨ op = "not_matches") ∧
      ∃ p, b = Value.str p ∧ reValid p = false := by
  unfold applyOperator at h
  split at h <;>
    (try unfold reSearchOp at h) <;>
    (repeat' split at h) <;>
    simp_all

/-- A failing condition-list evaluation pinpoints a failing condition. -/
theorem evalConditions_error {l : List RuleCondition} {d : Value} {e : Unit}
    (h : evalConditions d l = .error e) :
    ∃ c ∈ l, evaluateCondition c d = .error e := by
  induction l with
  | nil => simp [evalConditions] at h
  | cons c cs ih =>
    rw [evalConditions] at h
    cases hc : evaluateCondition c d with
    | error e₂ =>
      rw [hc] at h
      cases h
      exact ⟨c, List.mem_cons_self c cs, hc⟩
    | ok r =>
      rw [hc] at h
      cases hcs : evalConditions d cs with
      | error e₂ =>
        rw [hcs] at h
        cases h
        obtain ⟨c₂, hmem, hval⟩ := ih hcs
        exact ⟨c₂, List.mem_cons_of_mem c hmem, hval⟩
      | ok rs =>
        rw [hcs] at h
        exact Except.noConfusion h

/-- C7 (amended): rule evaluation is total EXCEPT for `re.error`: the only
way `evaluate_condition` (and hence `evaluate_rule`) raises is a
`matches`/`not_matches` condition whose value is an invalid regex pattern
(`re.error` is not covered by the `except (TypeError, AttributeError)`
clause); every other operator error yields `false` for that condition. -/
theorem evaluation_error_only_bad_regex :
    (∀ (c : RuleCondition) (d : Value) (e : Unit),
      evaluateCondition c d = .error e →
        (c.operator = "matches" ∨ c.operator = "not_matches") ∧
        ∃ p, c.value = Value.str p ∧ reValid p = false) ∧
    (∀ (r : EvalRule) (d : Value) (e : Unit),
      evaluateRule r d = .error e →
        ∃ c ∈ r.conditions,
          (c.operator = "matches" ∨ c.operator = "not_matches") ∧
          ∃ p, c.value = Value.str p ∧ reValid p = false) := by
  have hcond : ∀ (c : RuleCondition) (d : Value) (e : Unit),
      evaluateCondition c d = .error e →
        (c.operator = "matches" ∨ c.operator = "not_matches") ∧
        ∃ p, c.value = Value.str p ∧ reValid p = false := by
    intro c d e h
    unfold evaluateCondition at h
    split at h
    · dsimp only at h
      split at h <;>
        first
          | exact Except.noConfusion h
          | exact applyOperator_reErr (by assumption)
    · exact Except.noConfusion h
  refine ⟨hcond, ?_⟩
  intro r d e h
  unfold evaluateRule at h
  cases hec : evalConditions d r.conditions with
  | error e₂ =>
    rw [hec] at h
    cases h
    obtain ⟨c, hm, hval⟩ := evalConditions_error hec
    exact ⟨c, hm, hcond c d _ hval⟩
  | ok rs =>
    rw [hec] at h
    split at h <;>
      first
        | exact Except.noConfusion h
        | (split at h <;> exact Except.noConfusion h)

unseal pyEq in
/-- C7 (counterexample): evaluation DOES throw: the operator `matches`
with the invalid regex pattern `"["` on a truthy field value raises
`re.error` out of both `evaluate_condition` and `evaluate_rule` (the
`except (TypeError, AttributeError)` clause does not catch it). -/
theorem evaluation_throws_on_bad_regex :
    evaluateCondition badRegexCond badRegexPage = .error () ∧
    evaluateRule ⟨[badRegexCond], "AND"⟩ badRegexPage = .error () := by
  refine ⟨by decide, by decide⟩

/-- Witness for C7 at the bad-regex condition above. -/
theorem evaluation_error_only_bad_regex_witness :
    (badRegexCond.operator = "matches" ∨ badRegexCond.operator = "not_matches")
    ∧ ∃ p, badRegexCond.value = Value.str p ∧ reValid p = false := by
  have h := evaluation_error_only_bad_regex.1 badRegexCond badRegexPage ()
    (by decide)
  exact h

/-- Membership in one issue block determines the issue. -/
theorem mem_onpageIssueBlock {i : Issue} {r t d : String} {sev : Severity}
    {cnt : ℕ} {imp : ℚ} {rec : String}
    (h : i ∈ onpageIssueBlock r t d sev cnt imp rec) :
    i = { rule_id := r, title := t, description := d, severity := sev,
          category := "on_page", affected_urls := [], affected_count := cnt,
          impact_score := imp, effort_score := 5, recommendation := rec } := by
  unfold onpageIssueBlock at h
  split at h
  · simpa using h
  · simp at h

/-- C4 (amended): eleven of the twelve on-page issues carry
`impact_score = round₂(min(100, rule_base · severity_mult ·
(0.3 + 0.7 · min(1, affected/max(1, total)))))` — the code's
`calculate_impact_score` — but `onpage-uppercase-urls` is emitted with the
literal `impact_score = 20.0`, independent of coverage. -/
theorem onpage_impact_formula (c : OnPageCounts) (total : ℕ) :
    ∀ i ∈ onpageIssues c total,
      i.impact_score =
        if i.rule_id = "onpage-uppercase-urls" then 20
        else pyRound2 (min 100 (onpageRuleBase i.rule_id
          * impactSeverityMultiplier i.severity
          * (3/10 + 7/10 * min 1 ((i.affected_count : ℚ)
              / (max 1 total : ℕ))))) := by
  intro i hi
  simp only [onpageIssues, List.mem_append] at hi
  rcases hi with ((((((((((h | h) | h) | h) | h) | h) | h) | h) | h) | h) | h)
    | h <;> cases mem_onpageIssueBlock h <;> rfl

/-- Witness for C4: the `onpage-uppercase-urls` issue emitted for one
affected page out of two. -/
theorem onpage_impact_formula_witness :
    (⟨"onpage-uppercase-urls", "URLs containing uppercase characters", "",
      .low, "on_page", [], 1, 20, 5,
      "Use only lowercase URLs. Redirect uppercase variants to lowercase equivalents."⟩
        : Issue).impact_score =
      if (⟨"onpage-uppercase-urls", "URLs containing uppercase characters",
        "", .low, "on_page", [], 1, 20, 5,
        "Use only lowercase URLs. Redirect uppercase variants to lowercase equivalents."⟩
          : Issue).rule_id = "onpage-uppercase-urls" then 20
      else pyRound2 (min 100 (onpageRuleBase "onpage-uppercase-urls"
        * impactSeverityMultiplier .low * (3/10 + 7/10 * min 1 ((1 : ℚ) / 2)))) :=
  onpage_impact_formula ⟨0, 0, 0, 0, 0, 0, 0, 0, 0, 0, 0, 1⟩ 2 _ (by decide)

/-- C4 (counterexample): `onpage-uppercase-urls` ignores the impact
formula.  With one of two pages affected and again with two of two pages
affected, the emitted impact score is the constant 20.0; no per-rule base
score can make the claim's formula
`clamp(rule_base · severity_mult · (0.3 + 0.7 · coverage), 0, 100)`
produce 20 at both coverages (severity `low`, multiplier 0.25). -/
theorem onpage_uppercase_impact_counterexample :
    ((onpageIssues ⟨0, 0, 0, 0, 0, 0, 0, 0, 0, 0, 0, 1⟩ 2).map
        (fun i => (i.rule_id, i.impact_score)) =
      [("onpage-uppercase-urls", 20)]) ∧
    ((onpageIssues ⟨0, 0, 0, 0, 0, 0, 0, 0, 0, 0, 0, 2⟩ 2).map
        (fun i => (i.rule_id, i.impact_score)) =
      [("onpage-uppercase-urls", 20)]) ∧
    ¬∃ b : ℚ,
      20 = max 0 (min 100 (b * impactSeverityMultiplier .low
        * (3/10 + 7/10 * min 1 ((1 : ℚ) / 2)))) ∧
      20 = max 0 (min 100 (b * impactSeverityMultiplier .low
        * (3/10 + 7/10 * min 1 ((2 : ℚ) / 2)))) := by
  refine ⟨by decide, by decide, ?_⟩
  rintro ⟨b, h1, h2⟩
  have key : ∀ y : ℚ, (20 : ℚ) = max 0 (min 100 y) → y = 20 := by
    intro y h
    rcases le_total y 100 with hy | hy
    · rw [min_eq_right hy] at h
      rcases le_total 0 y with h0 | h0
      · rw [max_eq_right h0] at h
        exact h.symm
      · rw [max_eq_left h0] at h
        norm_num at h
    · rw [min_eq_left hy] at h
      norm_num at h
  have hb1 := key _ h1
  have hb2 := key _ h2
  rw [show min (1 : ℚ) ((1 : ℚ) / 2) = 1 / 2 from min_eq_right (by norm_num)]
    at hb1
  rw [show min (1 : ℚ) ((2 : ℚ) / 2) = 1 from by norm_num] at hb2
  simp only [impactSeverityMultiplier] at hb1 hb2
  nlinarith [hb1, hb2]

/-- The recommendation loop assigns ranks `k, k+1, ...` in list order. -/
theorem buildRecommendations_map_rank (mt : ℚ) :
    ∀ (l : List (Issue × ℚ)) (k : ℕ),
      (buildRecommendations mt k l).map Recommendation.priority_rank
        = List.range' k l.length := by
  intro l
  induction l with
  | nil => intro k; rfl
  | cons p rest ih =>
    intro k
    simp only [buildRecommendations, List.map_cons, List.length_cons,
      List.range'_succ]
    exact congrArg _ (ih (k + 1))

/-- The recommendation loop preserves the issue order. -/
theorem buildRecommendations_map_issue_id (mt : ℚ) :
    ∀ (l : List (Issue × ℚ)) (k : ℕ),
      (buildRecommendations mt k l).map Recommendation.issue_id
        = l.map (fun p => p.1.rule_id) := by
  intro l
  induction l with
  | nil => intro k; rfl
  | cons p rest ih =>
    intro k
    simp only [buildRecommendations, List.map_cons]
    exact congrArg _ (ih (k + 1))

/-- The descending score comparison is transitive. -/
theorem priorityDescLE_trans (a b c : Issue × ℚ)
    (h₁ : priorityDescLE a b) (h₂ : priorityDescLE b c) :
    priorityDescLE a c := by
  simp only [priorityDescLE, decide_eq_true_eq] at *
  exact le_trans h₂ h₁

/-- The descending score comparison is total. -/
theorem priorityDescLE_total (a b : Issue × ℚ) :
    priorityDescLE a b || priorityDescLE b a := by
  simp only [priorityDescLE]
  rcases le_total a.2 b.2 with h | h <;> simp [h]

/-- C5 (amended): for a nonempty collected issue list the emitted
recommendations carry priority_rank values exactly `1..N` (dense,
`N = min(50, number of issues)`), in the order of the stable descending
sort of the scored issues: priority scores are non-increasing along the
output (ties keep the collected-issue order, Python's stable sort), and
each recommendation corresponds positionally to its sorted scored
issue. -/
theorem prioritization_ranking (ers : List (List Issue)) (mt : ℚ)
    (h : ers.flatten ≠ []) :
    ((prioritizationRun ers mt).recommendations.map
        Recommendation.priority_rank
      = List.range' 1 (min 50 ers.flatten.length))
    ∧ List.Pairwise (· ≥ ·)
        ((scoredSortedTop50 ers.flatten).map Prod.snd)
    ∧ ((prioritizationRun ers mt).recommendations.map
        Recommendation.issue_id
      = (scoredSortedTop50 ers.flatten).map (fun p => p.1.rule_id))
    ∧ ∀ p ∈ scoredSortedTop50 ers.flatten,
        p.2 = calculate_priority_score p.1 := by
  have hrun : (prioritizationRun ers mt).recommendations
      = buildRecommendations mt 1 (scoredSortedTop50 ers.flatten) := by
    unfold prioritizationRun
    rw [if_neg h]
  have hsorted :
      ((ers.flatten.map (fun i => (i, calculate_priority_score i))).mergeSort
        priorityDescLE).Pairwise (fun a b => priorityDescLE a b) := by
    exact List.sorted_mergeSort priorityDescLE_trans priorityDescLE_total _
  refine ⟨?_, ?_, ?_, ?_⟩
  · rw [hrun, buildRecommendations_map_rank]
    unfold scoredSortedTop50
    rw [List.length_take, List.length_mergeSort, List.length_map]
  · unfold scoredSortedTop50
    refine List.Pairwise.map _ ?_ (hsorted.sublist (List.take_sublist _ _))
    intro a b hab
    simp only [priorityDescLE, decide_eq_true_eq] at hab
    exact hab
  · rw [hrun, buildRecommendations_map_issue_id]
  · intro p hp
    unfold scoredSortedTop50 at hp
    have hp₂ := List.mem_mergeSort.mp (List.mem_of_mem_take hp)
    obtain ⟨i, _, rfl⟩ := List.mem_map.mp hp₂
    rfl

/-- C5 (counterexample): ties are NOT broken by rule id, and scores are
not strictly descending.  `issueB` (rule id "b-rule") and `issueA`
("a-rule") have identical priority scores; collected in the order
`[issueB, issueA]`, the stable sort keeps that order, so the emitted
ranks are `b-rule ↦ 1, a-rule ↦ 2` — not the lexicographic order the
claim states, and with equal (hence not strictly descending) scores. -/
theorem prioritization_tie_counterexample :
    ((prioritizationRun [[issueB, issueA]] 10000).recommendations.map
        (fun r => (r.issue_id, r.priority_rank))
      = [("b-rule", 1), ("a-rule", 2)])
    ∧ calculate_priority_score issueB = calculate_priority_score issueA := by
  have hmerge :
      (([issueB, issueA].map
        (fun i => (i, calculate_priority_score i))).mergeSort priorityDescLE)
      = [issueB, issueA].map (fun i => (i, calculate_priority_score i)) := by
    apply List.mergeSort_of_sorted
    simp only [List.map_cons, List.map_nil, List.pairwise_cons,
      List.mem_singleton]
    refine ⟨?_, ?_, List.Pairwise.nil⟩
    · intro p hp
      rw [hp]
      simp only [priorityDescLE, decide_eq_true_eq]
      exact le_refl _
    · intro p hp
      simp at hp
  constructor
  · have hflat : ([[issueB, issueA]] : List (List Issue)).flatten
        = [issueB, issueA] := by simp
    unfold prioritizationRun
    rw [hflat, if_neg (by simp)]
    unfold scoredSortedTop50
    rw [hmerge]
    rfl
  · rfl

/-- Witness for C5 at the two-issue input. -/
theorem prioritization_ranking_witness :
    ((prioritizationRun [[issueB, issueA]] 10000).recommendations.map
        Recommendation.priority_rank
      = List.range' 1 (min 50 ([[issueB, issueA]] : List (List Issue)).flatten.length))
    ∧ List.Pairwise (· ≥ ·)
        ((scoredSortedTop50 ([[issueB, issueA]] : List (List Issue)).flatten).map
          Prod.snd)
    ∧ ((prioritizationRun [[issueB, issueA]] 10000).recommendations.map
        Recommendation.issue_id
      = (scoredSortedTop50 ([[issueB, issueA]] : List (List Issue)).flatten).map
          (fun p => p.1.rule_id))
    ∧ ∀ p ∈ scoredSortedTop50 ([[issueB, issueA]] : List (List Issue)).flatten,
        p.2 = calculate_priority_score p.1 :=
  prioritization_ranking [[issueB, issueA]] 10000 (by decide)

/-- Invariants of the link-enqueue loop: it never touches `visited`,
`crawled` or `fingerprints`, only appends to the queue, respects the
`2·max_pages` growth cap, and can only grow the queue while
`|visited| < 2·max_pages`. -/
theorem enqueueLinks_spec (cfg : CrawlConfig) (nz : String) (dep : ℕ) :
    ∀ (links : List String) (st st' : CrawlState) (ok : Bool),
      enqueueLinks cfg nz dep links st = (st', ok) →
      st'.visited = st.visited ∧ st'.crawled = st.crawled ∧
      st.queue.length ≤ st'.queue.length ∧
      st'.queue.length ≤ max st.queue.length (2 * cfg.max_pages) ∧
      (st'.queue.length ≠ st.queue.length →
        st.visited.length < 2 * cfg.max_pages) := by
  intro links
  induction links with
  | nil =>
    intro st st' ok h
    rw [enqueueLinks] at h
    cases h
    exact ⟨rfl, rfl, le_refl _, le_max_left _ _, fun hne => absurd rfl hne⟩
  | cons link rest ih =>
    intro st st' ok h
    rw [enqueueLinks] at h
    rcases hn : urlNormalize link nz with _ | ln
    · rw [hn] at h
      exact ih st st' ok h
    · rw [hn] at h
      dsimp only at h
      by_cases hv : ln ∈ st.visited
      · rw [if_pos hv] at h
        exact ih st st' ok h
      · rw [if_neg hv] at h
        rcases hd : isSameDomain ln cfg.domain with e | b
        · rw [hd] at h
          dsimp only at h
          cases h
          exact ⟨rfl, rfl, le_refl _, le_max_left _ _,
            fun hne => absurd rfl hne⟩
        · rw [hd] at h
          cases b <;> dsimp only at h
          · exact ih st st' ok h
          · by_cases hc :
              st.queue.length + st.visited.length < cfg.max_pages * 2
            · rw [if_pos hc] at h
              obtain ⟨h1, h2, h3, h4, h5⟩ := ih _ st' ok h
              refine ⟨h1, h2, ?_, ?_, ?_⟩
              · calc st.queue.length
                    ≤ (st.queue ++ [(⟨ln, dep + 1⟩ : CrawlItem)]).length := by
                      simp
                  _ ≤ st'.queue.length := h3
              · have hq1 : (st.queue ++ [(⟨ln, dep + 1⟩ : CrawlItem)]).length
                    ≤ 2 * cfg.max_pages := by
                  simp only [List.length_append, List.length_cons,
                    List.length_nil]
                  omega
                calc st'.queue.length
                    ≤ max (st.queue ++ [(⟨ln, dep + 1⟩ : CrawlItem)]).length
                        (2 * cfg.max_pages) := h4
                  _ ≤ max st.queue.length (2 * cfg.max_pages) := by
                      rw [max_le_iff]
                      exact ⟨le_max_of_le_right hq1, le_max_right _ _⟩
              · intro _
                omega
            · rw [if_neg hc] at h
              exact ih st st' ok h

/-- Invariants of one `crawl_url` task: `visited` only grows, the
collected pages are untouched, the queue only grows and stays under the
cap, and the queue can only grow when the task inserted a new visited URL
while `|visited| < 2·max_pages`. -/
theorem crawlUrl_spec (cfg : CrawlConfig) (robots : RobotsHandler)
    (web : CrawlWeb) (st : CrawlState) (item : CrawlItem)
    (st' : CrawlState) (popt : Option CrawlPage)
    (h : crawlUrl cfg robots web st item = (st', popt)) :
    st.visited.length ≤ st'.visited.length ∧
    st'.crawled = st.crawled ∧
    st.queue.length ≤ st'.queue.length ∧
    st'.queue.length ≤ max st.queue.length (2 * cfg.max_pages) ∧
    (st'.queue.length ≠ st.queue.length →
      st.visited.length < 2 * cfg.max_pages ∧
      st.visited.length < st'.visited.length) := by
  have triv : ∀ s : CrawlState, s = st' →
      st.visited.length ≤ st'.visited.length ∧
      st'.crawled = st.crawled ∧
      st.queue.length ≤ st'.queue.length ∧
      st'.queue.length ≤ max st.queue.length (2 * cfg.max_pages) ∧
      (st'.queue.length ≠ st.queue.length →
        st.visited.length < 2 * cfg.max_pages ∧
        st.visited.length < st'.queue.length) → True := fun _ _ _ => trivial
  clear triv
  unfold crawlUrl at h
  rcases hn : urlNormalize item.url cfg.root_url with _ | nz <;> rw [hn] at h
  · cases h
    exact ⟨le_refl _, rfl, le_refl _, le_max_left _ _,
      fun hne => absurd rfl hne⟩
  · dsimp only at h
    rcases hd : isSameDomain nz cfg.domain with e | b <;> rw [hd] at h
    · dsimp only at h
      cases h
      exact ⟨le_refl _, rfl, le_refl _, le_max_left _ _,
        fun hne => absurd rfl hne⟩
    · cases b <;> dsimp only at h
      · cases h
        exact ⟨le_refl _, rfl, le_refl _, le_max_left _ _,
          fun hne => absurd rfl hne⟩
      · by_cases hv : nz ∈ st.visited
        · rw [if_pos hv] at h
          cases h
          exact ⟨le_refl _, rfl, le_refl _, le_max_left _ _,
            fun hne => absurd rfl hne⟩
        · rw [if_neg hv] at h
          set st₁ : CrawlState :=
            { st with visited := st.visited ++ [nz] } with hst₁
          have hv₁ : st₁.visited.length = st.visited.length + 1 := by
            simp [hst₁]
          have base : st.visited.length ≤ st₁.visited.length := by omega
          by_cases hdep : item.depth > cfg.max_depth
          · rw [if_pos hdep] at h
            injection h with h1 h2
            subst h1
            exact ⟨base, rfl, le_refl _, le_max_left _ _,
              fun hne => absurd rfl hne⟩
          · rw [if_neg hdep] at h
            rcases hr : robots.canFetch nz cfg.user_agent with e | rb <;>
              rw [hr] at h
            · dsimp only at h
              injection h with h1 h2
              subst h1
              exact ⟨base, rfl, le_refl _, le_max_left _ _,
                fun hne => absurd rfl hne⟩
            · cases rb <;> dsimp only at h
              · injection h with h1 h2
                subst h1
                exact ⟨base, rfl, le_refl _, le_max_left _ _,
                  fun hne => absurd rfl hne⟩
              · rcases hw : web nz with _ | page₀ <;> rw [hw] at h
                · injection h with h1 h2
                  subst h1
                  exact ⟨base, rfl, le_refl _, le_max_left _ _,
                    fun hne => absurd rfl hne⟩
                · dsimp only at h
                  have finish : ∀ (st₂ : CrawlState) (pg₂ : CrawlPage),
                      st₂.visited = st.visited ++ [nz] →
                      st₂.queue = st.queue →
                      st₂.crawled = st.crawled →
                      ((if item.depth < cfg.max_depth then
                          match enqueueLinks cfg nz item.depth pg₂.links st₂
                            with
                          | (st₃, true) => (st₃, some pg₂)
                          | (st₃, false) =>
                            (st₃, (Option.none : Option CrawlPage))
                        else (st₂, some pg₂)) = (st', popt)) →
                      st.visited.length ≤ st'.visited.length ∧
                      st'.crawled = st.crawled ∧
                      st.queue.length ≤ st'.queue.length ∧
                      st'.queue.length ≤
                        max st.queue.length (2 * cfg.max_pages) ∧
                      (st'.queue.length ≠ st.queue.length →
                        st.visited.length < 2 * cfg.max_pages ∧
                        st.visited.length < st'.visited.length) := by
                    intro st₂ pg₂ hvis hq hcr hmain
                    by_cases hdl : item.depth < cfg.max_depth
                    · rw [if_pos hdl] at hmain
                      rcases he : enqueueLinks cfg nz item.depth pg₂.links st₂
                        with ⟨st₃, ok₃⟩
                      rw [he] at hmain
                      obtain ⟨e1, e2, e3, e4, e5⟩ :=
                        enqueueLinks_spec cfg nz item.depth pg₂.links st₂ st₃
                          ok₃ he
                      have hv2 : st₂.visited.length = st.visited.length + 1 := by
                        rw [hvis]; simp
                      have hv3 : st₃.visited.length = st₂.visited.length := by
                        rw [e1]
                      cases ok₃ <;> dsimp only at hmain <;>
                        (injection hmain with h1 h2; subst h1) <;>
                        refine ⟨by omega, by rw [e2, hcr], ?_, ?_, ?_⟩ <;>
                        [skip; skip; skip; skip; skip; skip] <;>
                        first
                          | (rw [← hq]; exact e3)
                          | (calc st₃.queue.length
                                ≤ max st₂.queue.length (2 * cfg.max_pages) :=
                                  e4
                              _ = max st.queue.length (2 * cfg.max_pages) := by
                                  rw [hq])
                          | (intro hne
                             rw [← hq] at hne
                             have := e5 hne
                             constructor <;> omega)
                    · rw [if_neg hdl] at hmain
                      injection hmain with h1 h2
                      subst h1
                      refine ⟨by rw [hvis]; simp, hcr, ?_, ?_, ?_⟩
                      · rw [hq]
                      · rw [hq]; exact le_max_left _ _
                      · intro hne
                        rw [hq] at hne
                        exact absurd rfl hne
                  by_cases hh :
                      ({ page₀ with depth := item.depth } : CrawlPage).html
                        ≠ "" <;>
                    [rw [if_pos hh] at h; rw [if_neg hh] at h] <;>
                    dsimp only at h
                  · by_cases hfp :
                        ({ page₀ with depth := item.depth } : CrawlPage).html
                          ∈ st₁.fingerprints <;>
                      [rw [if_pos hfp, if_pos hfp] at h;
                       rw [if_neg hfp, if_neg hfp] at h] <;>
                      dsimp only at h
                    · exact finish _ _ (by simp [hst₁]) (by simp [hst₁])
                        (by simp [hst₁]) h
                    · exact finish _ _ (by simp [hst₁]) (by simp [hst₁])
                        (by simp [hst₁]) h
                  · exact finish _ _ (by simp [hst₁]) (by simp [hst₁])
                      (by simp [hst₁]) h

/-- Invariants of processing one batch sequentially: `visited` only
grows, `crawled` is untouched (pages are appended by the loop, not the
tasks), at most one page per batch item is produced, the queue only grows
and stays under the cap, and queue growth requires a `visited` insertion
below the cap. -/
theorem processBatch_spec (cfg : CrawlConfig) (robots : RobotsHandler)
    (web : CrawlWeb) :
    ∀ (batch : List CrawlItem) (st st' : CrawlState)
      (pages : List CrawlPage),
      processBatch cfg robots web st batch = (st', pages) →
      st.visited.length ≤ st'.visited.length ∧
      st'.crawled = st.crawled ∧
      pages.length ≤ batch.length ∧
      st.queue.length ≤ st'.queue.length ∧
      st'.queue.length ≤ max st.queue.length (2 * cfg.max_pages) ∧
      (st'.queue.length ≠ st.queue.length →
        st.visited.length < 2 * cfg.max_pages ∧
        st.visited.length < st'.visited.length) := by
  intro batch
  induction batch with
  | nil =>
    intro st st' pages h
    rw [processBatch] at h
    injection h with h1 h2
    subst h1
    subst h2
    exact ⟨le_refl _, rfl, by simp, le_refl _, le_max_left _ _,
      fun hne => absurd rfl hne⟩
  | cons item rest ih =>
    intro st st' pages h
    rw [processBatch] at h
    rcases hu : crawlUrl cfg robots web st item with ⟨stm, popt⟩
    rw [hu] at h
    dsimp only at h
    rcases hr : processBatch cfg robots web stm rest with ⟨st₂, ps⟩
    rw [hr] at h
    dsimp only at h
    injection h with h1 h2
    subst h1
    subst h2
    obtain ⟨u1, u2, u3, u4, u5⟩ := crawlUrl_spec cfg robots web st item stm
      popt hu
    obtain ⟨i1, i2, i3, i4, i5, i6⟩ := ih stm st₂ ps hr
    have hpl : popt.toList.length ≤ 1 := by cases popt <;> simp
    refine ⟨by omega, by rw [i2, u2], ?_, by omega, ?_, ?_⟩
    · simp only [List.length_append, List.length_cons]
      omega
    · omega
    · intro hne
      by_cases hq1 : stm.queue.length = st.queue.length
      · have h6 := i6 (by omega)
        omega
      · have h5 := u5 hq1
        omega

/-- One guarded iteration of the BFS loop strictly decreases
`crawlMeasure` (when `concurrency ≥ 1`) and keeps
`|crawled_pages| ≤ max_pages`. -/
theorem crawlBatchStep_spec (cfg : CrawlConfig) (robots : RobotsHandler)
    (web : CrawlWeb) (st : CrawlState)
    (hconc : 1 ≤ cfg.concurrency)
    (hguard : crawlLoopGuard cfg st = true) :
    crawlMeasure cfg (crawlBatchStep cfg robots web st) < crawlMeasure cfg st
    ∧ (crawlBatchStep cfg robots web st).crawled.length ≤ cfg.max_pages := by
  simp only [crawlLoopGuard, Bool.and_eq_true, Bool.not_eq_true',
    List.isEmpty_eq_false, decide_eq_true_eq] at hguard
  obtain ⟨hqne, hlt⟩ := hguard
  have hqpos : 1 ≤ st.queue.length := List.length_pos.mpr hqne
  unfold crawlBatchStep
  dsimp only
  set bs := min (cfg.concurrency * 2)
    (min st.queue.length (cfg.max_pages - st.crawled.length)) with hbs
  rcases hp : processBatch cfg robots web ({ st with queue := st.queue.drop bs }) (st.queue.take bs) with ⟨st₂, pages⟩
  dsimp only
  have hbs1 : 1 ≤ bs := by
    have h2 : 2 ≤ cfg.concurrency * 2 := by omega
    have h3 : 1 ≤ cfg.max_pages - st.crawled.length := by omega
    omega
  have hbsq : bs ≤ st.queue.length := by omega
  have hbscr : bs ≤ cfg.max_pages - st.crawled.length := by omega
  obtain ⟨b1, b2, b3, b4, b5, b6⟩ := processBatch_spec cfg robots web _ _ _ _
    hp
  simp only [List.length_drop, List.length_take] at b1 b2 b3 b4 b5 b6
  have hpl : pages.length ≤ bs := by omega
  constructor
  · unfold crawlMeasure
    set M := cfg.max_pages with hM
    set v := st.visited.length with hv
    set v₂ := st₂.visited.length with hv₂
    set q := st.queue.length with hq
    set q₂ := st₂.queue.length with hq₂
    by_cases hgrow : q₂ = q - bs
    · have hT : 2 * M - v₂ ≤ 2 * M - v := by omega
      have hmul := Nat.mul_le_mul_right (2 * M + 1) hT
      omega
    · have h6 := b6 (by omega)
      obtain ⟨h6a, h6b⟩ := h6
      have hT : (2 * M - v₂) + 1 ≤ 2 * M - v := by omega
      have hmul := Nat.mul_le_mul_right (2 * M + 1) hT
      rw [add_mul, one_mul] at hmul
      omega
  · simp only [List.length_append]
    rw [b2]
    omega

/-- If the measure of the state is below the fuel, the BFS loop (with at
least one worker) returns within that fuel and keeps the crawled-page
count within `max_pages`. -/
theorem crawlLoop_halts_of_measure_lt (cfg : CrawlConfig)
    (robots : RobotsHandler) (web : CrawlWeb)
    (hconc : 1 ≤ cfg.concurrency) :
    ∀ N st, crawlMeasure cfg st < N → st.crawled.length ≤ cfg.max_pages →
      ∃ final, crawlLoop cfg robots web N st = some final
        ∧ final.crawled.length ≤ cfg.max_pages := by
  intro N
  induction N with
  | zero => intro st hm _; omega
  | succ n ih =>
    intro st hm hcr
    by_cases hg : crawlLoopGuard cfg st = true
    · obtain ⟨hdec, hcr2⟩ := crawlBatchStep_spec cfg robots web st hconc hg
      obtain ⟨final, hf, hb⟩ := ih (crawlBatchStep cfg robots web st)
        (by omega) hcr2
      exact ⟨final, by simp only [crawlLoop, hg, if_true]; exact hf, hb⟩
    · exact ⟨st, by simp only [crawlLoop, hg, if_false, Bool.false_eq_true], hcr⟩

/-- C8 (corrected): with `concurrency ≥ 1` — every value the defaults or
a positive setting produce — the BFS loop halts after at most
`crawlMeasure cfg st` iterations and the crawled-page list never exceeds
`max_pages`.  (With `concurrency = 0`, which no caller validates away,
the loop spins forever: see the counterexample.) -/
theorem crawl_loop_terminates (cfg : CrawlConfig) (robots : RobotsHandler)
    (web : CrawlWeb) (st : CrawlState)
    (hconc : 1 ≤ cfg.concurrency)
    (hcr : st.crawled.length ≤ cfg.max_pages) :
    ∃ final,
      crawlLoop cfg robots web (crawlMeasure cfg st + 1) st = some final
      ∧ final.crawled.length ≤ cfg.max_pages :=
  crawlLoop_halts_of_measure_lt cfg robots web hconc
    (crawlMeasure cfg st + 1) st (by omega) hcr

/-- C8 counterexample: with `concurrency = 0` and a nonempty frontier the
guard holds, `batch_size = min(0, …) = 0`, the iteration is the identity,
and the loop never returns however much fuel it is given — the claim
"halts for every configuration" fails. -/
theorem crawl_zero_concurrency_spins :
    crawlLoopGuard zeroConcConfig zeroConcState = true
    ∧ crawlBatchStep zeroConcConfig emptyRobots failingWeb zeroConcState
        = zeroConcState
    ∧ ∀ fuel,
        crawlLoop zeroConcConfig emptyRobots failingWeb fuel zeroConcState
          = Option.none := by
  refine ⟨by decide, rfl, ?_⟩
  intro fuel
  induction fuel with
  | zero => rfl
  | succ n ih =>
    show crawlLoop zeroConcConfig emptyRobots failingWeb (n + 1)
      zeroConcState = Option.none
    rw [crawlLoop]
    simp only [if_pos (by decide : crawlLoopGuard zeroConcConfig zeroConcState = true)]
    exact ih

/-- Witness for `crawl_loop_terminates` at a concrete one-worker
configuration. -/
theorem crawl_loop_terminates_witness :
    1 ≤ oneConcConfig.concurrency
    ∧ oneConcState.crawled.length ≤ oneConcConfig.max_pages
    ∧ ∃ final,
        crawlLoop oneConcConfig emptyRobots failingWeb
            (crawlMeasure oneConcConfig oneConcState + 1) oneConcState
          = some final
        ∧ final.crawled.length ≤ oneConcConfig.max_pages :=
  ⟨by decide, by decide,
    crawl_loop_terminates oneConcConfig emptyRobots failingWeb oneConcState
      (by decide) (by decide)⟩
